import Mathlib

/-!
# Verification of the couchbase-migrator ingestion pipelines

A shallow embedding of the ingestion core of the `couchbase-migrator`
repository: the playlist ingestion pipeline (`processPlaylistFile`,
`ingestPlaylists`, `generateUniqueSlug`, `analyzePlaylistItems`), the user
ingestion pipeline (`processUserFile`, `ingestUsers`,
`fetchOktaWithRetry`) and the error-sink utility (`writeErrorToFile`).

Conventions of the embedding:
* JSON documents are modelled by the inductive `JValue`; numbers are exact
  integers (every number occurring in the migrated documents is integral).
* JavaScript `Date` values are represented by the string they were parsed
  from; the current time is an explicit `now : String` parameter.
* The external collaborators (local mapping database, Core relational
  store, Firebase, Okta) are explicit state records; nondeterminism
  (`Math.random`, `uuidv4`, `Date.now`) is supplied by explicit streams.
* Asynchronous execution is linearised: files are processed in list order.
  The batched `Promise.allSettled` loops only aggregate the individual
  outcomes, which is what the theorems below are about.
-/

set_option maxHeartbeats 1000000

/-! ## JSON values (the result of `JSON.parse`) -/

inductive JValue where
  | null
  | bool (b : Bool)
  | num (n : Int)
  | str (s : String)
  | arr (elems : List JValue)
  | obj (fields : List (String × JValue))
  deriving Inhabited

/-- Object member access `v[k]`. `JSON.parse` keeps the last of duplicate
keys, hence the lookup walks the reversed field list. A missing key is
JavaScript `undefined`, modelled as `none`. -/
def jGet (v : JValue) (k : String) : Option JValue :=
  match v with
  | .obj fields => (fields.reverse.find? (fun p => p.fst = k)).map (·.snd)
  | _ => none

/-! ## Character-list string operations

The built-in `String` functions (`endsWith`, `toLower`, `trim`,
`splitOn`, ...) recurse on byte positions by well-founded recursion; the
equivalents below recurse structurally on the character list, so that
concrete runs reduce inside the kernel. -/

/-- `s.endsWith suffix`. -/
def strEndsWith (s suffix : String) : Bool :=
  List.isPrefixOf suffix.data.reverse s.data.reverse

/-- `s.toLowerCase()` / `String.toLower`. -/
def strToLower (s : String) : String :=
  String.mk (s.data.map Char.toLower)

/-- `s.trim()`. -/
def strTrim (s : String) : String :=
  String.mk (((s.data.dropWhile Char.isWhitespace).reverse.dropWhile Char.isWhitespace).reverse)

/-- Helper of `strSplitOnChar`: `cur` holds the current chunk reversed. -/
def splitOnCharAux (sep : Char) : List Char → List Char → List String
  | [], cur => [String.mk cur.reverse]
  | c :: rest, cur =>
      if c = sep then String.mk cur.reverse :: splitOnCharAux sep rest []
      else splitOnCharAux sep rest (c :: cur)

/-- `s.split(sep)` for a single-character separator (every separator the
source uses is one character). -/
def strSplitOnChar (sep : Char) (s : String) : List String :=
  splitOnCharAux sep s.data []

/-! ## Zod-style primitive checks

Each helper mirrors one Zod combinator: the outer `Option` is the
`safeParse` success flag. "Optional" means the key may be absent
(JavaScript `undefined`); "nullish" additionally accepts `null`. -/

/-- `z.string()` on a required key. -/
def zReqStr (v : JValue) (k : String) : Option String :=
  match jGet v k with
  | some (.str s) => some s
  | _ => none

/-- `z.number()` on a required key. -/
def zReqNum (v : JValue) (k : String) : Option Int :=
  match jGet v k with
  | some (.num n) => some n
  | _ => none

/-- `z.string().optional()`: key absent or a string. -/
def zOptStr (v : JValue) (k : String) : Option (Option String) :=
  match jGet v k with
  | none => some none
  | some (.str s) => some (some s)
  | _ => none

/-- `z.string().nullish()`: key absent, `null`, or a string. The absent
and `null` cases are collapsed to `none`; every later use of such a field
in the source treats `null` and `undefined` alike (`??` / `||`). -/
def zNullishStr (v : JValue) (k : String) : Option (Option String) :=
  match jGet v k with
  | none => some none
  | some .null => some none
  | some (.str s) => some (some s)
  | _ => none

/-- `z.string().nullish()` where the source later distinguishes `null`
from `undefined` (`item.type !== undefined`): outer layer = defined,
inner = non-null. -/
def zNullishStrKeep (v : JValue) (k : String) : Option (Option (Option String)) :=
  match jGet v k with
  | none => some none
  | some .null => some (some none)
  | some (.str s) => some (some (some s))
  | _ => none

/-- `z.literal(lit)` on a required key. -/
def zLiteral (v : JValue) (k lit : String) : Bool :=
  match jGet v k with
  | some (.str s) => s = lit
  | _ => false

/-- One element of `z.array(z.string())`. -/
def jIsStr : JValue → Bool
  | .str _ => true
  | _ => false

/-- One element of `z.array(z.number())`. -/
def jIsNum : JValue → Bool
  | .num _ => true
  | _ => false

/-- `z.array(elemOk)` on a required key, as a boolean check. -/
def zReqArrOk (v : JValue) (k : String) (elemOk : JValue → Bool) : Bool :=
  match jGet v k with
  | some (.arr xs) => xs.all elemOk
  | _ => false

/-- `z.union([z.null(), z.array(z.string())])`: element of
`history.channels`. -/
def jIsNullOrStrArr : JValue → Bool
  | .null => true
  | .arr xs => xs.all jIsStr
  | _ => false

/-- `z.object({})` accepts any object (unknown keys are stripped). -/
def jIsObj : JValue → Bool
  | .obj _ => true
  | _ => false

/-- One value of the `channels` record: `z.union([z.null(), z.object({})])`. -/
def jIsNullOrObj : JValue → Bool
  | .null => true
  | .obj _ => true
  | _ => false

/-- `z.record(z.string(), z.union([z.null(), z.object({})]))`. -/
def jIsChannelsRecord : JValue → Bool
  | .obj fields => fields.all (fun p => jIsNullOrObj p.snd)
  | _ => false

/-- `z.record(z.string(), z.record(z.string(), z.number()))`. -/
def jIsAccessRecord : JValue → Bool
  | .obj fields =>
      fields.all (fun p =>
        match p.snd with
        | .obj inner => inner.all (fun q => jIsNum q.snd)
        | _ => false)
  | _ => false

/-- The `history` object of `SyncDataSchema`. -/
def zSyncHistoryOk (v : JValue) : Bool :=
  match jGet v "history" with
  | some h =>
      zReqArrOk h "revs" jIsStr &&
      zReqArrOk h "parents" jIsNum &&
      zReqArrOk h "channels" jIsNullOrStrArr
  | none => false

/-- `SyncDataSchema` of the playlist pipeline: `channels` and `access`
are `.nullish()`. -/
def syncDataOkPlaylists (v : JValue) : Bool :=
  (zReqStr v "rev").isSome &&
  (zReqNum v "sequence").isSome &&
  zReqArrOk v "recent_sequences" jIsNum &&
  zSyncHistoryOk v &&
  (match jGet v "channels" with
   | none => true
   | some .null => true
   | some c => jIsChannelsRecord c) &&
  (match jGet v "access" with
   | none => true
   | some .null => true
   | some a => jIsAccessRecord a) &&
  (zReqStr v "time_saved").isSome

/-- `SyncDataSchema` of the user pipeline: `channels` and `access` are
`.optional()` (absent ok, `null` rejected). -/
def syncDataOkUsers (v : JValue) : Bool :=
  (zReqStr v "rev").isSome &&
  (zReqNum v "sequence").isSome &&
  zReqArrOk v "recent_sequences" jIsNum &&
  zSyncHistoryOk v &&
  (match jGet v "channels" with
   | none => true
   | some c => jIsChannelsRecord c) &&
  (match jGet v "access" with
   | none => true
   | some a => jIsAccessRecord a) &&
  (zReqStr v "time_saved").isSome

/-! ## Playlist document schema and transform (`part_011`) -/

/-- A playlist item as accepted by `PlaylistItemSchema`. -/
structure RawPlaylistItem where
  createdAt : String
  languageId : Int
  mediaComponentId : String
  /-- `type` is `.nullish()`; outer `Option` = key defined. -/
  type : Option (Option String)
  deriving Repr, DecidableEq

/-- `PlaylistItemSchema.safeParse` on one array element. -/
def parsePlaylistItem (v : JValue) : Option RawPlaylistItem := do
  let createdAt ← zReqStr v "createdAt"
  let languageId ← zReqNum v "languageId"
  let mediaComponentId ← zReqStr v "mediaComponentId"
  let type ← zNullishStrKeep v "type"
  pure { createdAt, languageId, mediaComponentId, type }

/-- Parse the `playlistItems` field: `.nullish().default([])`. Absent
gives the default `[]`; `null` is kept (the transform applies `|| []`). -/
def parsePlaylistItemsField (v : JValue) : Option (Option (List RawPlaylistItem)) :=
  match jGet v "playlistItems" with
  | none => some (some [])
  | some .null => some none
  | some (.arr xs) => (xs.mapM parsePlaylistItem).map some
  | _ => none

/-- The validated `JFM-profiles` object of a playlist document. -/
structure PlaylistProfile where
  createdAt : Option String
  /-- `.nullish().default('')`: absent becomes `some ""`, `null` stays `none`. -/
  note : Option String
  noteModifiedAt : Option String
  owner : String
  playlistByDisplayName : Option String
  playlistItems : Option (List RawPlaylistItem)
  playlistName : Option String
  updatedAt : Option String
  deriving Repr, DecidableEq

/-- `PlaylistProfileSchema.safeParse`. -/
def parsePlaylistProfile (v : JValue) : Option PlaylistProfile := do
  let sync ← jGet v "_sync"
  if !syncDataOkPlaylists sync then none else
  let createdAt ← zNullishStr v "createdAt"
  let note ←
    match jGet v "note" with
    | none => some (some "")
    | some .null => some none
    | some (.str s) => some (some s)
    | _ => none
  let noteModifiedAt ← zNullishStr v "noteModifiedAt"
  let owner ← zReqStr v "owner"
  let playlistByDisplayName ← zNullishStr v "playlistByDisplayName"
  let playlistItems ← parsePlaylistItemsField v
  let playlistName ← zNullishStr v "playlistName"
  if !zLiteral v "type" "playlist" then none else
  let updatedAt ← zNullishStr v "updatedAt"
  pure { createdAt, note, noteModifiedAt, owner, playlistByDisplayName,
         playlistItems, playlistName, updatedAt }

/-- `PlaylistDocumentSchema.safeParse`: `JFM-profiles` plus `cas`. -/
def parsePlaylistDocument (v : JValue) : Option (PlaylistProfile × Int) := do
  let profiles ← jGet v "JFM-profiles"
  let profile ← parsePlaylistProfile profiles
  let cas ← zReqNum v "cas"
  pure (profile, cas)

/-- A transformed playlist item (`ProcessedPlaylistItem`). Dates are the
strings they were built from. -/
structure ProcessedPlaylistItem where
  order : Nat
  createdAt : String
  updatedAt : String
  mediaComponentId : String
  languageId : Int
  type : Option (Option String)
  deriving Repr, DecidableEq

/-- `ProcessedPlaylist`: the transform result carried through the
pipeline. `savedItems`/`skippedItems` start empty and are populated
during processing. -/
structure ProcessedPlaylist where
  id : String
  name : String
  displayName : String
  note : String
  noteModifiedAt : String
  owner : String
  items : List ProcessedPlaylistItem
  itemCount : Nat
  savedItems : List ProcessedPlaylistItem
  skippedItems : List ProcessedPlaylistItem
  createdAt : String
  updatedAt : String
  cas : Int
  deriving Repr, DecidableEq

/-- JavaScript `x || fallback` on a nullish string field: `null`,
`undefined` and `""` are falsy. -/
def jsOrStr (x : Option String) (fallback : String) : String :=
  match x with
  | some s => if s = "" then fallback else s
  | none => fallback

/-- The item transform inside `validateAndTransformPlaylist`:
`order` is the array index, `updatedAt` copies `createdAt`, and
`new Date(item.createdAt || now)` keeps its source string. -/
def transformPlaylistItem (now : String) (index : Nat) (item : RawPlaylistItem) :
    ProcessedPlaylistItem :=
  let createdAt := jsOrStr (some item.createdAt) now
  { order := index
    createdAt := createdAt
    updatedAt := createdAt
    mediaComponentId := item.mediaComponentId
    languageId := item.languageId
    type := item.type }

/-- `validateAndTransformPlaylist` (minus its error-file side effect,
accounted for at the call site): Zod parse followed by the transform. -/
def validateAndTransformPlaylist (rawData : JValue) (fileID now : String) :
    Option ProcessedPlaylist :=
  match parsePlaylistDocument rawData with
  | none => none
  | some (p, cas) =>
      let rawItems := p.playlistItems.getD []
      let transformedItems :=
        (List.range rawItems.length).zipWith (transformPlaylistItem now) rawItems
      some
        { id := fileID
          name := p.playlistName.getD ""
          displayName := (p.playlistByDisplayName.or p.playlistName).getD ""
          note := p.note.getD ""
          noteModifiedAt := jsOrStr p.noteModifiedAt (jsOrStr p.createdAt now)
          owner := p.owner
          items := transformedItems
          itemCount := transformedItems.length
          savedItems := []
          skippedItems := []
          createdAt := jsOrStr p.createdAt now
          updatedAt := jsOrStr p.updatedAt now
          cas := cas }

/-! ## Relational rows and databases -/

/-- A row of the local mapping database (`prismaUsers.user`,
table `User` of `part_021`). -/
structure LocalUserRow where
  ownerId : String
  email : String
  ssoGuid : String
  coreId : String
  isSecondaryAccount : Bool := false
  deriving Repr, DecidableEq

/-- A playlist header row (`prismaApiMedia.playlist`). -/
structure PlaylistRow where
  id : String
  name : String
  note : String
  noteUpdatedAt : String
  ownerId : String
  createdAt : String
  updatedAt : String
  slug : String
  deriving Repr, DecidableEq

/-- A playlist item row (`prismaApiMedia.playlistItem`); the
`VideoVariant` connection is stored as the variant's id. -/
structure PlaylistItemRow where
  id : String
  playlistId : String
  order : Nat
  createdAt : String
  updatedAt : String
  videoVariantId : String
  deriving Repr, DecidableEq

/-- A video-variant catalog row (`prismaApiMedia.videoVariant`), with its
`languageId_videoId` composite unique key. -/
structure VideoVariantRow where
  id : String
  languageId : String
  videoId : String
  deriving Repr, DecidableEq

/-- The api-media relational store. -/
structure MediaDB where
  playlists : List PlaylistRow
  playlistItems : List PlaylistItemRow
  videoVariants : List VideoVariantRow
  deriving Repr, DecidableEq

/-- `prismaApiMedia.playlist.findUnique({ where: { id } })`. -/
def findPlaylistById (db : MediaDB) (id : String) : Option PlaylistRow :=
  db.playlists.find? (fun r => r.id == id)

/-- `prismaApiMedia.playlist.findUnique({ where: { slug } })`. -/
def findPlaylistBySlug (db : MediaDB) (slug : String) : Option PlaylistRow :=
  db.playlists.find? (fun r => r.slug == slug)

/-- `prismaApiMedia.videoVariant.findUnique({ where: { languageId_videoId } })`. -/
def findVideoVariant (db : MediaDB) (languageId videoId : String) : Option VideoVariantRow :=
  db.videoVariants.find? (fun r => r.languageId == languageId && r.videoId == videoId)

/-- `prismaApiMedia.playlistItem.findUnique({ where: { playlistId_order } })`. -/
def findPlaylistItemByOrder (db : MediaDB) (playlistId : String) (order : Nat) :
    Option PlaylistItemRow :=
  db.playlistItems.find? (fun r => r.playlistId == playlistId && r.order == order)

/-- `PlaylistUpdateInput` as built by `processPlaylistFile`: only the
mutable fields — deliberately no `slug`, no `createdAt`, no `id`. -/
structure PlaylistUpdateInput where
  name : String
  note : String
  noteUpdatedAt : String
  ownerId : String
  updatedAt : String
  deriving Repr, DecidableEq

/-- Apply a `PlaylistUpdateInput` to an existing row: `id`, `createdAt`
and `slug` are untouched. -/
def applyPlaylistUpdate (row : PlaylistRow) (u : PlaylistUpdateInput) : PlaylistRow :=
  { row with
    name := u.name
    note := u.note
    noteUpdatedAt := u.noteUpdatedAt
    ownerId := u.ownerId
    updatedAt := u.updatedAt }

/-- `prismaApiMedia.playlist.upsert({ where: { id }, update, create })`. -/
def upsertPlaylist (db : MediaDB) (id : String) (upd : PlaylistUpdateInput)
    (create : PlaylistRow) : MediaDB :=
  if db.playlists.any (fun r => r.id == id) then
    { db with
      playlists := db.playlists.map (fun r => if r.id == id then applyPlaylistUpdate r upd else r) }
  else
    { db with playlists := db.playlists ++ [create] }

/-- The `update` half of the playlist-item upsert: order, update
timestamp and the `VideoVariant` connection. -/
structure PlaylistItemUpdateInput where
  order : Nat
  updatedAt : String
  videoVariantId : String
  deriving Repr, DecidableEq

/-- Apply a `PlaylistItemUpdateInput` to an existing item row. -/
def applyPlaylistItemUpdate (row : PlaylistItemRow) (u : PlaylistItemUpdateInput) :
    PlaylistItemRow :=
  { row with order := u.order, updatedAt := u.updatedAt, videoVariantId := u.videoVariantId }

/-- `prismaApiMedia.playlistItem.upsert({ where: { id }, update, create })`. -/
def upsertPlaylistItem (db : MediaDB) (id : String) (upd : PlaylistItemUpdateInput)
    (create : PlaylistItemRow) : MediaDB :=
  if db.playlistItems.any (fun r => r.id == id) then
    { db with
      playlistItems :=
        db.playlistItems.map (fun r => if r.id == id then applyPlaylistItemUpdate r upd else r) }
  else
    { db with playlistItems := db.playlistItems ++ [create] }

/-! ## Slug generation (`generateUniqueSlug`) -/

/-- The slug alphabet `'abcdefghijklmnopqrstuvwxyz0123456789'`. -/
def slugCharsList : List Char := "abcdefghijklmnopqrstuvwxyz0123456789".toList

theorem slugCharsList_length : slugCharsList.length = 36 := rfl

/-- `chars.charAt(Math.floor(Math.random() * chars.length))`: one random
draw, supplied as a `Fin 36`. -/
def slugCharAt (k : Fin 36) : Char :=
  slugCharsList.get (Fin.cast slugCharsList_length.symm k)

/-- One candidate slug: six random characters, drawn from the stream
`rand` starting at position `idx`. -/
def mkSlug (rand : Nat → Fin 36) (idx : Nat) : String :=
  String.mk ((List.range 6).map (fun i => slugCharAt (rand (idx + i))))

/-- The attempt loop of `generateUniqueSlug`: up to `remaining` more
attempts; each attempt consumes six random draws and checks
`playlist.findUnique({ where: { slug } })`. `none` models the final
`throw new Error('Unable to generate unique slug after 10 attempts')`. -/
def generateUniqueSlugGo (rand : Nat → Fin 36) (db : MediaDB) :
    Nat → Nat → Option (String × Nat)
  | _, 0 => none
  | idx, remaining + 1 =>
      let result := mkSlug rand idx
      if (findPlaylistBySlug db result).isSome then
        generateUniqueSlugGo rand db (idx + 6) remaining
      else
        some (result, idx + 6)

/-- `generateUniqueSlug` with its `maxAttempts = 10`; returns the slug
and the advanced random-stream position. -/
def generateUniqueSlug (rand : Nat → Fin 36) (db : MediaDB) (idx : Nat) :
    Option (String × Nat) :=
  generateUniqueSlugGo rand db idx 10

/-! ## `processPlaylistFile` -/

/-- A mutating write against the api-media store. -/
inductive PlWrite where
  | playlistUpsert (id : String)
  | playlistItemUpsert (id : String)
  deriving Repr, DecidableEq

/-- The payload handed to `writeErrorToFile`. -/
inductive PlPayload where
  | rawDoc (v : Option JValue)
  | playlist (p : ProcessedPlaylist)
  | itemCtx (playlistId playlistName : String) (item : ProcessedPlaylistItem)

/-- One `writeErrorToFile` call of the playlist pipeline. -/
structure PlArtifact where
  category : String
  name : String
  errMsg : String
  payload : PlPayload

/-- The fulfilled value of `processPlaylistFile`:
`ProcessedPlaylist | DeletedPlaylist | null`. -/
inductive PlaylistOutcome where
  | playlist (p : ProcessedPlaylist)
  | deleted
  | failed

/-- External inputs of a playlist run: the local user mapping store, the
`Math.random` draw stream, the `uuidv4` stream, and the current time. -/
structure PlEnv where
  usersDb : List LocalUserRow
  rand : Nat → Fin 36
  uuid : Nat → String
  now : String

/-- Mutable state threaded through a playlist run. -/
structure PlState where
  db : MediaDB
  randIdx : Nat
  uuidIdx : Nat
  deriving Repr

/-- Result of `processPlaylistFile` on one file. -/
structure PlResult where
  outcome : PlaylistOutcome
  state : PlState
  writes : List PlWrite
  artifacts : List PlArtifact

/-- `path.basename(filePath, '.json')`; file paths are modelled as bare
file names. -/
def basenameNoJson (s : String) : String :=
  if strEndsWith s ".json" then String.mk (s.data.take (s.data.length - 5)) else s

/-- Accumulator of the per-item loop of `processPlaylistFile`. -/
structure ItemsAcc where
  state : PlState
  writes : List PlWrite
  artifacts : List PlArtifact
  savedItems : List ProcessedPlaylistItem
  skippedItems : List ProcessedPlaylistItem

/-- The error-artifact written for one skipped playlist item: it carries
the playlist id, the playlist name and the full item. -/
def mkItemArtifact (p : ProcessedPlaylist) (item : ProcessedPlaylistItem) : PlArtifact :=
  { category := "playListItems"
    name := p.id ++ "-" ++ toString item.order ++ "-" ++ item.mediaComponentId ++ ".json"
    errMsg := "VideoVariant not found for mediaComponentId: " ++ item.mediaComponentId
    payload := .itemCtx p.id p.name item }

/-- One iteration of the `for (const item of processedPlaylist.items)`
loop: a missing video variant records one artifact and pushes the item to
`skippedItems` and processing continues; otherwise the item is upserted
and pushed to `savedItems`. The id follows
`existingItem?.id || uuidv4()`: the id of an existing row found by the
`(playlistId, order)` key is reused unless it is the falsy empty string,
in which case (as when no row exists) a fresh uuid is drawn. -/
def playlistItemStep (env : PlEnv) (p : ProcessedPlaylist) (acc : ItemsAcc)
    (item : ProcessedPlaylistItem) : ItemsAcc :=
  match findVideoVariant acc.state.db (toString item.languageId) item.mediaComponentId with
  | none =>
      { acc with
        artifacts := acc.artifacts ++ [mkItemArtifact p item]
        skippedItems := acc.skippedItems ++ [item] }
  | some videoVariant =>
      let existingItem := findPlaylistItemByOrder acc.state.db p.id item.order
      let itemId := match existingItem with
        | some r => if r.id = "" then env.uuid acc.state.uuidIdx else r.id
        | none => env.uuid acc.state.uuidIdx
      let uuidIdx := match existingItem with
        | some r => if r.id = "" then acc.state.uuidIdx + 1 else acc.state.uuidIdx
        | none => acc.state.uuidIdx + 1
      let createRow : PlaylistItemRow :=
        { id := itemId
          playlistId := p.id
          order := item.order
          createdAt := item.createdAt
          updatedAt := item.updatedAt
          videoVariantId := videoVariant.id }
      let upd : PlaylistItemUpdateInput :=
        { order := item.order, updatedAt := item.updatedAt, videoVariantId := videoVariant.id }
      let db2 := upsertPlaylistItem acc.state.db itemId upd createRow
      { acc with
        state := { acc.state with db := db2, uuidIdx := uuidIdx }
        writes := acc.writes ++ [.playlistItemUpsert itemId]
        savedItems := acc.savedItems ++ [item] }

/-- The item loop of `processPlaylistFile`. -/
def processPlaylistItems (env : PlEnv) (p : ProcessedPlaylist)
    (items : List ProcessedPlaylistItem) (acc : ItemsAcc) : ItemsAcc :=
  items.foldl (playlistItemStep env p) acc

/-- The pre-validation deletion check
`rawData?.['JFM-profiles']?._deleted === true`. -/
def playlistDeletedMarker (rawData : JValue) : Bool :=
  match jGet rawData "JFM-profiles" with
  | some profiles =>
      match jGet profiles "_deleted" with
      | some (.bool true) => true
      | _ => false
  | none => false

/-- `const slug = existingPlaylist?.slug || (await generateUniqueSlug())`:
the slug of an existing playlist is reused (unless it is the falsy empty
string); otherwise a fresh slug is generated. Returns the slug and the
advanced random-stream position, or `none` when generation exhausts its
attempts. -/
def playlistSlugChoice (env : PlEnv) (st : PlState) (p : ProcessedPlaylist) :
    Option (String × Nat) :=
  match findPlaylistById st.db p.id with
  | some row =>
      if row.slug = "" then generateUniqueSlug env.rand st.db st.randIdx
      else some (row.slug, st.randIdx)
  | none => generateUniqueSlug env.rand st.db st.randIdx

/-- `processPlaylistFile`. `raw = none` models an unreadable file
(`fs.readFile`/`JSON.parse` threw). The `if items.length > 0` guard of
the source is dropped: the loop is the identity on an empty item list. -/
def processPlaylistFile (env : PlEnv) (dryRun : Bool) (filePath : String)
    (raw : Option JValue) (st : PlState) : PlResult :=
  match raw with
  | none =>
      { outcome := .failed, state := st, writes := []
        artifacts := [⟨"playlists", filePath, "read error", .rawDoc none⟩] }
  | some rawData =>
      if playlistDeletedMarker rawData then
        { outcome := .deleted, state := st, writes := [], artifacts := [] }
      else
        let fileID := basenameNoJson filePath
        match validateAndTransformPlaylist rawData fileID env.now with
        | none =>
            { outcome := .failed, state := st, writes := []
              artifacts :=
                [⟨"playlists", fileID, "ZodError", .rawDoc (some rawData)⟩,
                 ⟨"playlists", filePath, "Invalid playlist file", .rawDoc (some rawData)⟩] }
        | some processedPlaylist =>
            if dryRun then
              { outcome := .playlist processedPlaylist, state := st, writes := [], artifacts := [] }
            else
              match env.usersDb.find? (fun r => r.ownerId == processedPlaylist.owner) with
              | none =>
                  let msg := "User not found for playlist " ++ processedPlaylist.name
                  { outcome := .failed, state := st, writes := []
                    artifacts :=
                      [⟨"playlists", filePath, msg, .playlist processedPlaylist⟩,
                       ⟨"playlists", filePath, msg, .playlist processedPlaylist⟩] }
              | some relatedUser =>
                  match playlistSlugChoice env st processedPlaylist with
                  | none =>
                      { outcome := .failed
                        state := { st with randIdx := st.randIdx + 60 }
                        writes := []
                        artifacts :=
                          [⟨"playlists", filePath,
                            "Unable to generate unique slug after 10 attempts",
                            .playlist processedPlaylist⟩] }
                  | some (slug, randIdx2) =>
                      let playListToCreate : PlaylistRow :=
                        { id := processedPlaylist.id
                          name := processedPlaylist.name
                          note := processedPlaylist.note
                          noteUpdatedAt := processedPlaylist.noteModifiedAt
                          ownerId := relatedUser.coreId
                          createdAt := processedPlaylist.createdAt
                          updatedAt := processedPlaylist.updatedAt
                          slug := slug }
                      let playListToUpdate : PlaylistUpdateInput :=
                        { name := processedPlaylist.name
                          note := processedPlaylist.note
                          noteUpdatedAt := processedPlaylist.noteModifiedAt
                          ownerId := relatedUser.coreId
                          updatedAt := processedPlaylist.updatedAt }
                      let db1 :=
                        upsertPlaylist st.db processedPlaylist.id playListToUpdate playListToCreate
                      let st1 := { st with db := db1, randIdx := randIdx2 }
                      let acc := processPlaylistItems env processedPlaylist
                        processedPlaylist.items
                        ⟨st1, [.playlistUpsert processedPlaylist.id], [], [], []⟩
                      let p2 :=
                        { processedPlaylist with
                          savedItems := acc.savedItems
                          skippedItems := acc.skippedItems }
                      { outcome := .playlist p2
                        state := acc.state
                        writes := acc.writes
                        artifacts := acc.artifacts }

/-! ## `analyzePlaylistItems` and `ingestPlaylists` -/

/-- Insertion into a JavaScript `Set` (insertion order preserved). -/
def insertUniqueStr (xs : List String) (x : String) : List String :=
  if xs.contains x then xs else xs ++ [x]

/-- `languageDistribution.set(lang, (languageDistribution.get(lang) || 0) + 1)`
on a JavaScript `Map` (insertion order preserved, in-place update). -/
def bumpLanguage (m : List (Int × Nat)) (lang : Int) : List (Int × Nat) :=
  if m.any (fun q => q.fst == lang) then
    m.map (fun q => if q.fst == lang then (q.fst, q.snd + 1) else q)
  else
    m ++ [(lang, 1)]

/-- The statistics record returned by `analyzePlaylistItems`. The
JavaScript floating-point average is modelled by the exact rational. -/
structure PlAnalysis where
  totalItems : Nat
  totalSavedItems : Nat
  totalSkippedItems : Nat
  totalItemsNotProcessed : Nat
  videoVariantsNotFound : Nat
  uniqueMediaComponents : List String
  languageDistribution : List (Int × Nat)
  averageItemsPerPlaylist : Rat
  deriving Repr, DecidableEq

/-- Accumulator of the `analyzePlaylistItems` loop. -/
structure AnalyzeAcc where
  totalItems : Nat
  totalSavedItems : Nat
  totalSkippedItems : Nat
  uniqueSkippedVideoVariants : List String
  uniqueMediaComponents : List String
  languageDistribution : List (Int × Nat)

/-- The per-playlist body of the `analyzePlaylistItems` loop. -/
def analyzeStep (acc : AnalyzeAcc) (playlist : ProcessedPlaylist) : AnalyzeAcc :=
  let skippedKeys := playlist.skippedItems.foldl
    (fun s item => insertUniqueStr s (item.mediaComponentId ++ "-" ++ toString item.languageId))
    acc.uniqueSkippedVideoVariants
  let comps := playlist.items.foldl
    (fun s item => insertUniqueStr s item.mediaComponentId) acc.uniqueMediaComponents
  let langs := playlist.items.foldl
    (fun m item => bumpLanguage m item.languageId) acc.languageDistribution
  { totalItems := acc.totalItems + playlist.itemCount
    totalSavedItems := acc.totalSavedItems + playlist.savedItems.length
    totalSkippedItems := acc.totalSkippedItems + playlist.skippedItems.length
    uniqueSkippedVideoVariants := skippedKeys
    uniqueMediaComponents := comps
    languageDistribution := langs }

/-- `analyzePlaylistItems`. -/
def analyzePlaylistItems (playlists : List ProcessedPlaylist) : PlAnalysis :=
  let acc := playlists.foldl analyzeStep ⟨0, 0, 0, [], [], []⟩
  { totalItems := acc.totalItems
    totalSavedItems := acc.totalSavedItems
    totalSkippedItems := acc.totalSkippedItems
    totalItemsNotProcessed := 0
    videoVariantsNotFound := acc.uniqueSkippedVideoVariants.length
    uniqueMediaComponents := acc.uniqueMediaComponents
    languageDistribution := acc.languageDistribution
    averageItemsPerPlaylist :=
      if playlists.length > 0 then (acc.totalItems : Rat) / (playlists.length : Rat) else 0 }

/-- `PlaylistIngestionSummary`. -/
structure PlaylistIngestionSummary where
  successCount : Nat
  errorCount : Nat
  totalFiles : Nat
  analysis : PlAnalysis
  processedPlaylists : List ProcessedPlaylist
  videoVariantsNotFound : Nat

/-- Accumulator of the batched processing loop of `ingestPlaylists`. -/
structure PlRunAcc where
  state : PlState
  processedPlaylists : List ProcessedPlaylist
  successCount : Nat
  errorCount : Nat
  artifacts : List PlArtifact

/-- Outcome aggregation of `ingestPlaylists`: a fulfilled non-null value
counts as a success (pushed to `processedPlaylists` only when its `type`
is `'playlist'`); a null result counts as an error. The concurrency of
one batch is linearised to file order. -/
def ingestPlaylistsStep (env : PlEnv) (dryRun : Bool) (acc : PlRunAcc)
    (file : String × Option JValue) : PlRunAcc :=
  let r := processPlaylistFile env dryRun file.fst file.snd acc.state
  match r.outcome with
  | .playlist p =>
      { state := r.state
        processedPlaylists := acc.processedPlaylists ++ [p]
        successCount := acc.successCount + 1
        errorCount := acc.errorCount
        artifacts := acc.artifacts ++ r.artifacts }
  | .deleted =>
      { state := r.state
        processedPlaylists := acc.processedPlaylists
        successCount := acc.successCount + 1
        errorCount := acc.errorCount
        artifacts := acc.artifacts ++ r.artifacts }
  | .failed =>
      { state := r.state
        processedPlaylists := acc.processedPlaylists
        successCount := acc.successCount
        errorCount := acc.errorCount + 1
        artifacts := acc.artifacts ++ r.artifacts }

/-- `ingestPlaylists` over an enumerated file list (`fileName`, parsed
content). An empty list models the `return null` branch; the error
directories are cleared on entry, so the returned artifact list is
exactly this run's artifacts. -/
def ingestPlaylists (env : PlEnv) (dryRun : Bool)
    (files : List (String × Option JValue)) (st : PlState) :
    Option (PlaylistIngestionSummary × PlState × List PlArtifact) :=
  if files.isEmpty then none
  else
    let acc := files.foldl (ingestPlaylistsStep env dryRun) ⟨st, [], 0, 0, []⟩
    let analysis := analyzePlaylistItems acc.processedPlaylists
    some
      ({ successCount := acc.successCount
         errorCount := acc.errorCount
         totalFiles := files.length
         analysis := analysis
         processedPlaylists := acc.processedPlaylists
         videoVariantsNotFound := analysis.videoVariantsNotFound },
       acc.state, acc.artifacts)

/-! ## User document schema and transform (`users.ts`, `types.ts`) -/

/-- Characters allowed in the body of the local part of Zod's email
regular expression: `[A-Za-z0-9_'+\-\.]`. -/
def isEmailLocalChar (c : Char) : Bool :=
  c.isAlphanum || c = '_' || c = Char.ofNat 39 || c = '+' || c = '-' || c = '.'

/-- Characters allowed as the final local-part character: `[A-Za-z0-9_+-]`. -/
def isEmailLocalLastChar (c : Char) : Bool :=
  c.isAlphanum || c = '_' || c = '+' || c = '-'

/-- The `(?!.*\.\.)` negative lookahead: two consecutive dots. -/
def hasDoubleDot : List Char → Bool
  | a :: b :: rest => (a = '.' && b = '.') || hasDoubleDot (b :: rest)
  | _ => false

/-- One non-final domain label: `[A-Za-z0-9][A-Za-z0-9\-]*`. -/
def emailLabelOk : List Char → Bool
  | [] => false
  | c :: rest => c.isAlphanum && rest.all (fun d => d.isAlphanum || d = '-')

/-- The final domain label: `[A-Za-z]{2,}`. -/
def emailTldOk (l : List Char) : Bool :=
  decide (l.length ≥ 2) && l.all Char.isAlpha

/-- The domain: `([A-Za-z0-9][A-Za-z0-9\-]*\.)+[A-Za-z]{2,}`. -/
def emailDomainOk (domain : String) : Bool :=
  match (strSplitOnChar '.' domain).reverse with
  | tld :: labels =>
      !labels.isEmpty && emailTldOk tld.data && labels.all (fun l => emailLabelOk l.data)
  | [] => false

/-- `z.email()`: Zod's default email pattern
`^(?!\.)(?!.*\.\.)([A-Za-z0-9_'+\-\.]*)[A-Za-z0-9_+-]@...$`. -/
def zodEmailOk (s : String) : Bool :=
  !(s.data.head? == some '.') && !hasDoubleDot s.data &&
  (match strSplitOnChar '@' s with
   | [localPart, domain] =>
       let lc := localPart.data
       !lc.isEmpty &&
       lc.dropLast.all isEmailLocalChar &&
       (match lc.getLast? with
        | some c => isEmailLocalLastChar c
        | none => false) &&
       emailDomainOk domain
   | _ => false)

/-- The validated user profile (`UserProfileSchema` plus `cas`). -/
structure UserProfile where
  createdAt : String
  email : String
  homeCountry : Option String
  nameFirst : String
  nameLast : String
  notificationCountries : List String
  owner : String
  /-- `.optional().nullable()`: `null` and absence collapsed (never read). -/
  theKeyGrPersonId : Option String
  theKeyGuid : String
  theKeyRelayGuid : String
  theKeySsoGuid : String
  updatedAt : String
  cas : Int
  deriving Repr, DecidableEq

/-- `z.array(z.string()).optional().default([])`. -/
def parseNotificationCountries (v : JValue) : Option (List String) :=
  match jGet v "notificationCountries" with
  | none => some []
  | some (.arr xs) =>
      xs.mapM (fun x => match x with | .str s => some s | _ => none)
  | _ => none

/-- `z.string().optional().nullable()` (`theKeyGrPersonId`). -/
def parseOptNullableStr (v : JValue) (k : String) : Option (Option String) :=
  match jGet v k with
  | none => some none
  | some .null => some none
  | some (.str s) => some (some s)
  | _ => none

/-- `UserDocumentSchema.safeParse` (`JFM-profiles` via `UserProfileSchema`,
plus top-level `cas`). -/
def parseUserDocument (v : JValue) : Option UserProfile := do
  let profiles ← jGet v "JFM-profiles"
  let sync ← jGet profiles "_sync"
  if !syncDataOkUsers sync then none else
  let createdAt ← zReqStr profiles "createdAt"
  let email ← zReqStr profiles "email"
  if !zodEmailOk email then none else
  let homeCountry ← zOptStr profiles "homeCountry"
  let nameFirst ← zReqStr profiles "nameFirst"
  let nameLast ← zReqStr profiles "nameLast"
  let notificationCountries ← parseNotificationCountries profiles
  let owner ← zReqStr profiles "owner"
  let theKeyGrPersonId ← parseOptNullableStr profiles "theKeyGrPersonId"
  let theKeyGuid ← zReqStr profiles "theKeyGuid"
  let theKeyRelayGuid ← zReqStr profiles "theKeyRelayGuid"
  let theKeySsoGuid ← zReqStr profiles "theKeySsoGuid"
  if !zLiteral profiles "type" "profile" then none else
  let updatedAt ← zReqStr profiles "updatedAt"
  let cas ← zReqNum v "cas"
  pure { createdAt, email, homeCountry, nameFirst, nameLast,
         notificationCountries, owner, theKeyGrPersonId, theKeyGuid,
         theKeyRelayGuid, theKeySsoGuid, updatedAt, cas }

/-- The hardcoded `SKIP_CAS` exclusion list. The JavaScript literals are
doubles; they are modelled by the written integers. -/
def SKIP_CAS : List Int :=
  [1566300870055755800, 1687279660005064700, 1673036801239613400,
   1593720804749148200, 1672946638568226800]

/-- Result of `validateAndTransformUser`: `null` with no artifact
(cas-skipped), `null` with an artifact (Zod failure), or the profile with
a lowercased email. -/
inductive UserValidation where
  | casSkipped
  | invalid
  | valid (u : UserProfile)

/-- `validateAndTransformUser`: the pre-validation `SKIP_CAS` filter
(`cas &&` makes `0` fall through), then `safeParse`, then email
lowercasing. -/
def validateAndTransformUser (rawData : JValue) : UserValidation :=
  let cas : Option Int :=
    match jGet rawData "cas" with
    | some (.num n) => some n
    | _ => none
  match cas with
  | some n =>
      if n ≠ 0 && SKIP_CAS.contains n then .casSkipped
      else
        match parseUserDocument rawData with
        | none => .invalid
        | some u => .valid { u with email := strToLower u.email }
  | none =>
      match parseUserDocument rawData with
      | none => .invalid
      | some u => .valid { u with email := strToLower u.email }

/-! ## Okta and Firebase collaborators -/

/-- One entry of `credentials.emails` in an Okta user record. -/
structure OktaEmailEntry where
  type : String
  status : String
  value : String
  deriving Repr, DecidableEq

/-- The fields of an Okta directory record the pipeline reads. -/
structure OktaUserRec where
  id : String
  firstName : Option String
  lastName : Option String
  status : String
  theKeyGuid : String
  /-- `credentials?.emails` - both optional layers collapsed to one. -/
  emails : Option (List OktaEmailEntry)
  deriving Repr, DecidableEq

/-- The settled result of `fetchOktaWithRetry` around the directory
search: the parsed body on HTTP success, the status on HTTP failure
(404 and other statuses take distinct source branches with identical
effects), or a thrown exception. -/
inductive OktaSearchOutcome where
  | ok (users : List OktaUserRec)
  | httpError (status : Nat)
  | exception

/-- The `oktaUserData` record assembled from the single search match. -/
structure OktaUserData where
  id : String
  firstName : Option String
  lastName : Option String
  status : String
  primaryEmail : String
  primaryEmailObject : OktaEmailEntry
  theKeySsoGuid : String
  deriving Repr, DecidableEq

/-- A Firebase auth user record. -/
structure FirebaseUserRec where
  uid : String
  email : Option String
  emailVerified : Bool
  displayName : Option String
  providerIds : List String
  deriving Repr, DecidableEq

/-- A Core relational user row (`prismaApiUsers.user`). -/
structure CoreUserRow where
  id : String
  userId : String
  firstName : String
  lastName : String
  email : String
  emailVerified : Bool
  superAdmin : Bool
  deriving Repr, DecidableEq

/-- `auth.getUserByEmail` (the `auth/user-not-found` rejection is the
`none` case). -/
def fbGetUserByEmail (fb : List FirebaseUserRec) (email : String) : Option FirebaseUserRec :=
  fb.find? (fun u => u.email == some email)

/-- `auth.updateUser(uid, { providerToLink: { providerId: 'oidc.okta', ... } })`
applied to the Firebase table. -/
def fbLinkOkta (fb : List FirebaseUserRec) (uid : String) : List FirebaseUserRec :=
  fb.map (fun u => if u.uid == uid then { u with providerIds := u.providerIds ++ ["oidc.okta"] } else u)

/-- JavaScript template-literal rendering of a possibly-undefined string
(`${undefined}` prints `"undefined"`). -/
def jsTemplateOptStr : Option String → String
  | some s => s
  | none => "undefined"

/-- The display name `` `${firstName} ${lastName}`.trim() ``. -/
def oktaDisplayName (firstName lastName : Option String) : String :=
  (jsTemplateOptStr firstName ++ " " ++ jsTemplateOptStr lastName).trim

/-- `firebaseUser.displayName?.split(' ')[index] ?? ''`. -/
def displayNamePart (d : Option String) (index : Nat) : String :=
  match d with
  | none => ""
  | some s => ((strSplitOnChar ' ' s).get? index).getD ""

/-! ## `processUserFile` and `ingestUsers` -/

/-- External state of the user pipeline: local mapping store, Core store,
Firebase directory, and the uuid-stream position. -/
structure UsersState where
  localDb : List LocalUserRow
  coreDb : List CoreUserRow
  firebase : List FirebaseUserRec
  uuidIdx : Nat
  deriving Repr

/-- Run inputs of the user pipeline: the (deterministic) Okta search and
the uuid stream. The two Okta API credentials of `ingestUsers` address
the same directory, so the search function is credential-independent. -/
structure UsersEnv where
  okta : String → OktaSearchOutcome
  uuid : Nat → String

/-- One observable external or mutating call of `processUserFile`. -/
inductive UserCall where
  | oktaSearch (guid : String)
  | firebaseGetUserByEmail (email : String)
  | firebaseUpdateUser (uid : String)
  | firebaseCreateUser (email : String)
  | coreCreate (id : String)
  | localCreate (ownerId : String)
  deriving Repr, DecidableEq

/-- The payload handed to `writeErrorToFile` by the user pipeline. -/
inductive UPayload where
  | rawDoc (v : Option JValue)
  | profile (u : UserProfile)

/-- One `writeErrorToFile` call of the user pipeline. -/
structure UArtifact where
  category : String
  name : String
  errMsg : String
  payload : UPayload

/-- `User | UserLocal`: the non-null return values of `processUserFile`. -/
inductive CoreOrLocal where
  | core (u : CoreUserRow)
  | localUser (r : LocalUserRow)
  deriving Repr, DecidableEq

/-- Result of `processUserFile` on one file; `outcome = none` is the
`null` return. -/
structure UserResult where
  outcome : Option CoreOrLocal
  state : UsersState
  calls : List UserCall
  artifacts : List UArtifact

/-- Uniqueness violation for `prismaUsers.user.create`: the local `User`
table has `ownerId` as primary key and unique indexes on `email`,
`ssoGuid` and `coreId`. -/
def localCreateConflict (db : List LocalUserRow) (row : LocalUserRow) : Bool :=
  db.any (fun r =>
    r.ownerId == row.ownerId || r.email == row.email ||
    r.ssoGuid == row.ssoGuid || r.coreId == row.coreId)

/-- The `// Save to database using Prisma` section of `processUserFile`:
Core lookup-or-create by lowercased email, then the unconditional local
mapping insert (whose uniqueness violation is the caught `dbError`). -/
def saveUserToDatabases (env : UsersEnv) (filePath : String) (userData : UserProfile)
    (oktaGuid : String) (firebaseUser : FirebaseUserRec) (st : UsersState)
    (calls : List UserCall) (artifacts : List UArtifact) : UserResult :=
  match firebaseUser.email with
  | none =>
      { outcome := none, state := st, calls := calls
        artifacts := artifacts ++
          [⟨"users", filePath, "Firebase user dooes not have email for:  " ++ userData.email,
            .profile userData⟩] }
  | some fbEmail =>
      let existingUser := st.coreDb.find? (fun r => r.email == strToLower fbEmail)
      let userSavedToCore : CoreUserRow :=
        match existingUser with
        | some u => u
        | none =>
            { id := env.uuid st.uuidIdx
              userId := firebaseUser.uid
              firstName := displayNamePart firebaseUser.displayName 0
              lastName := displayNamePart firebaseUser.displayName 1
              email := strToLower fbEmail
              emailVerified := firebaseUser.emailVerified
              superAdmin := false }
      let st1 :=
        match existingUser with
        | some _ => st
        | none => { st with coreDb := st.coreDb ++ [userSavedToCore], uuidIdx := st.uuidIdx + 1 }
      let calls1 :=
        match existingUser with
        | some _ => calls
        | none => calls ++ [.coreCreate userSavedToCore.id]
      let userToSaveToLocal : LocalUserRow :=
        { ownerId := userData.owner
          email := strToLower fbEmail
          ssoGuid := oktaGuid
          coreId := userSavedToCore.id }
      if localCreateConflict st1.localDb userToSaveToLocal then
        { outcome := none, state := st1
          calls := calls1 ++ [.localCreate userToSaveToLocal.ownerId]
          artifacts := artifacts ++
            [⟨"users", filePath, "Unique constraint failed", .profile userData⟩] }
      else
        { outcome := some (.core userSavedToCore)
          state := { st1 with localDb := st1.localDb ++ [userToSaveToLocal] }
          calls := calls1 ++ [.localCreate userToSaveToLocal.ownerId]
          artifacts := artifacts }

/-- `resData.credentials?.emails?.find(email => email.type === 'PRIMARY')`. -/
def oktaPrimary (resData : OktaUserRec) : Option OktaEmailEntry :=
  match resData.emails with
  | none => none
  | some es => es.find? (fun e => e.type == "PRIMARY")

/-- `processUserFile`. `raw = none` models an unreadable file. The Okta
search goes through `fetchOktaWithRetry`; its settled result is
`env.okta`. -/
def processUserFile (env : UsersEnv) (dryRun : Bool) (filePath : String)
    (raw : Option JValue) (st : UsersState) : UserResult :=
  match raw with
  | none =>
      { outcome := none, state := st, calls := []
        artifacts := [⟨"users", filePath, "read error", .rawDoc none⟩] }
  | some rawData =>
      match validateAndTransformUser rawData with
      | .casSkipped => { outcome := none, state := st, calls := [], artifacts := [] }
      | .invalid =>
          { outcome := none, state := st, calls := []
            artifacts := [⟨"users", filePath, "ZodError", .rawDoc (some rawData)⟩] }
      | .valid userData =>
          if dryRun then
            { outcome := none, state := st, calls := [], artifacts := [] }
          else
            match st.localDb.find? (fun r => r.ssoGuid == userData.theKeySsoGuid) with
            | some existingLocalUser =>
                { outcome := some (.localUser existingLocalUser), state := st
                  calls := [], artifacts := [] }
            | none =>
                let guid := strTrim userData.theKeySsoGuid
                let calls0 := [UserCall.oktaSearch guid]
                match env.okta guid with
                | .exception =>
                    { outcome := none, state := st, calls := calls0
                      artifacts := [⟨"users", filePath, "Okta fetch error", .profile userData⟩] }
                | .httpError status =>
                    { outcome := none, state := st, calls := calls0
                      artifacts :=
                        [⟨"users", filePath, "Okta API error " ++ toString status,
                          .profile userData⟩] }
                | .ok responseData =>
                    match responseData with
                    | [] =>
                        { outcome := none, state := st, calls := calls0
                          artifacts :=
                            [⟨"users", filePath, "No users found in Okta response",
                              .profile userData⟩] }
                    | _ :: _ :: _ =>
                        { outcome := none, state := st, calls := calls0
                          artifacts :=
                            [⟨"users", filePath, "Multiple users found in Okta response",
                              .profile userData⟩] }
                    | [resData] =>
                        match oktaPrimary resData with
                        | none =>
                            { outcome := none, state := st, calls := calls0
                              artifacts :=
                                [⟨"users", filePath, "No primary email found in Okta response",
                                  .profile userData⟩] }
                        | some pe =>
                            let oktaUserData : OktaUserData :=
                              { id := resData.id
                                firstName := resData.firstName
                                lastName := resData.lastName
                                status := resData.status
                                primaryEmail := pe.value
                                primaryEmailObject := pe
                                theKeySsoGuid := resData.theKeyGuid }
                            let calls1 := calls0 ++
                              [UserCall.firebaseGetUserByEmail oktaUserData.primaryEmail]
                            match fbGetUserByEmail st.firebase oktaUserData.primaryEmail with
                            | some firebaseUser =>
                                if firebaseUser.providerIds.contains "oidc.okta" then
                                  saveUserToDatabases env filePath userData
                                    oktaUserData.theKeySsoGuid firebaseUser st calls1 []
                                else
                                  let fb2 := fbLinkOkta st.firebase firebaseUser.uid
                                  let firebaseUser2 :=
                                    { firebaseUser with
                                      providerIds := firebaseUser.providerIds ++ ["oidc.okta"] }
                                  saveUserToDatabases env filePath userData
                                    oktaUserData.theKeySsoGuid firebaseUser2
                                    { st with firebase := fb2 }
                                    (calls1 ++ [UserCall.firebaseUpdateUser firebaseUser.uid]) []
                            | none =>
                                let newUid := env.uuid st.uuidIdx
                                let created : FirebaseUserRec :=
                                  { uid := newUid
                                    email := some oktaUserData.primaryEmail
                                    emailVerified :=
                                      oktaUserData.primaryEmailObject.status == "VERIFIED"
                                    displayName :=
                                      some (oktaDisplayName oktaUserData.firstName
                                        oktaUserData.lastName)
                                    providerIds := [] }
                                let linked := { created with providerIds := ["oidc.okta"] }
                                let st2 :=
                                  { st with
                                    firebase := st.firebase ++ [linked]
                                    uuidIdx := st.uuidIdx + 1 }
                                saveUserToDatabases env filePath userData
                                  oktaUserData.theKeySsoGuid linked st2
                                  (calls1 ++
                                    [UserCall.firebaseCreateUser oktaUserData.primaryEmail,
                                     UserCall.firebaseUpdateUser newUid]) []

/-- `UserIngestionSummary`. -/
structure UserIngestionSummary where
  successCount : Nat
  errorCount : Nat
  totalFiles : Nat
  processedUsers : List CoreOrLocal

/-- Accumulator of the batched processing loop of `ingestUsers`. -/
structure URunAcc where
  state : UsersState
  processedUsers : List CoreOrLocal
  successCount : Nat
  errorCount : Nat
  calls : List UserCall
  artifacts : List UArtifact

/-- Outcome aggregation of `ingestUsers`: a fulfilled non-null value is a
success, a null result an error. Batch halves with distinct Okta tokens
are linearised to file order. -/
def ingestUsersStep (env : UsersEnv) (dryRun : Bool) (acc : URunAcc)
    (file : String × Option JValue) : URunAcc :=
  let r := processUserFile env dryRun file.fst file.snd acc.state
  match r.outcome with
  | some u =>
      { state := r.state
        processedUsers := acc.processedUsers ++ [u]
        successCount := acc.successCount + 1
        errorCount := acc.errorCount
        calls := acc.calls ++ r.calls
        artifacts := acc.artifacts ++ r.artifacts }
  | none =>
      { state := r.state
        processedUsers := acc.processedUsers
        successCount := acc.successCount
        errorCount := acc.errorCount + 1
        calls := acc.calls ++ r.calls
        artifacts := acc.artifacts ++ r.artifacts }

/-- `ingestUsers` over an enumerated file list. An empty list models the
`return null` branch; the `users` error directory is cleared on entry. -/
def ingestUsers (env : UsersEnv) (dryRun : Bool)
    (files : List (String × Option JValue)) (st : UsersState) :
    Option (UserIngestionSummary × UsersState × List UserCall × List UArtifact) :=
  if files.isEmpty then none
  else
    let acc := files.foldl (ingestUsersStep env dryRun) ⟨st, [], 0, 0, [], []⟩
    some
      ({ successCount := acc.successCount
         errorCount := acc.errorCount
         totalFiles := files.length
         processedUsers := acc.processedUsers },
       acc.state, acc.calls, acc.artifacts)

/-! ## `fetchOktaWithRetry`

Timing model: each `fn()` call is instantaneous at the current clock
value, `Date.now()` inside the handler reads that value, and
`setTimeout(delay)` advances the clock by exactly `delay`. -/

/-- The parts of a `fetch` `Response` the retry engine reads. -/
structure OktaHttpResponse where
  ok : Bool
  status : Nat
  /-- The `x-rate-limit-reset` header: a Unix timestamp in seconds. -/
  rateLimitReset : Option Nat
  deriving Repr, DecidableEq

/-- The delay computed for a 429 response: reset-header path
(`max(0, resetTime - now + bufferMs)` with `resetTime = reset * 1000`
and a 500 ms buffer) or exponential backoff `baseDelay * 2^(attempt-1)`. -/
def okta429Delay (response : OktaHttpResponse) (now : Int) (attempt baseDelay : Nat) : Int :=
  match response.rateLimitReset with
  | some reset => max 0 ((reset : Int) * 1000 - now + 500)
  | none => (baseDelay : Int) * 2 ^ (attempt - 1)

/-- Result of the retry engine: the returned response (`none` models the
trailing `return lastResponse!`, reachable only when `maxRetries = 0`)
and the clock value at each `fn()` call, in order. -/
structure OktaRetryResult where
  response : Option OktaHttpResponse
  callTimes : List Int
  deriving Repr, DecidableEq

/-- The attempt loop of `fetchOktaWithRetry`. `remaining + 1` iterations
are left; the running attempt number satisfies
`attempt + remaining = maxRetries`, so `remaining = 0` is the
`attempt === maxRetries` give-up check. -/
def fetchOktaWithRetryGo (fn : Nat → OktaHttpResponse) (baseDelay : Nat) :
    Nat → Nat → Int → OktaRetryResult
  | 0, _, _ => ⟨none, []⟩
  | remaining + 1, attempt, now =>
      let response := fn attempt
      if response.ok then ⟨some response, [now]⟩
      else if response.status = 429 then
        if remaining = 0 then ⟨some response, [now]⟩
        else
          let delay := okta429Delay response now attempt baseDelay
          let rest := fetchOktaWithRetryGo fn baseDelay remaining (attempt + 1) (now + delay)
          ⟨rest.response, now :: rest.callTimes⟩
      else ⟨some response, [now]⟩

/-- `fetchOktaWithRetry(fn, logger, maxRetries, baseDelay)` started at
clock value `startTime`. The call site uses `maxRetries = 5`,
`baseDelay = 5000`. -/
def fetchOktaWithRetry (fn : Nat → OktaHttpResponse) (maxRetries baseDelay : Nat)
    (startTime : Int) : OktaRetryResult :=
  fetchOktaWithRetryGo fn baseDelay maxRetries 1 startTime

/-! ## Error sink (`writeErrorToFile`, `part_002`) -/

/-- Content of one error artifact: the stringified error and the
optional offending payload (kept abstract as a string). -/
structure ErrorFileContent where
  error : String
  data : Option String
  deriving Repr, DecidableEq

/-- A tiny filesystem: directories and files with their content. -/
structure FsState where
  dirs : List String
  files : List (String × ErrorFileContent)
  deriving Repr, DecidableEq

/-- A filesystem fault injected by the environment. -/
inductive FsErr where
  | mkdirFailed
  | writeFailed
  deriving Repr, DecidableEq

/-- Fault model: which `fs.mkdir` / `fs.writeFile` calls reject. -/
structure FsEnv where
  mkdirFails : String → Bool
  writeFails : String → Bool

/-- `path.join`. -/
def pathJoin (a b : String) : String := a ++ "/" ++ b

/-- `path.basename`. -/
def pathBasename (p : String) : String :=
  match (strSplitOnChar '/' p).reverse with
  | x :: _ => x
  | [] => p

/-- `fs.mkdir(dir, { recursive: true })`. -/
def fsMkdir (env : FsEnv) (fs : FsState) (dir : String) : Except FsErr FsState :=
  if env.mkdirFails dir then .error .mkdirFailed
  else .ok { fs with dirs := insertUniqueStr fs.dirs dir }

/-- `fs.writeFile(path, content, 'utf8')` (overwrite). -/
def fsWriteFile (env : FsEnv) (fs : FsState) (p : String) (c : ErrorFileContent) :
    Except FsErr FsState :=
  if env.writeFails p then .error .writeFailed
  else .ok
    { fs with
      files := (fs.files.filter (fun q => q.fst ≠ p)) ++ [(p, c)] }

/-- A JavaScript error value as classified by `writeErrorToFile`. -/
inductive JsError where
  | errorObj (message : String)
  | strErr (s : String)
  | other (stringified : String)
  deriving Repr, DecidableEq

/-- `error instanceof Error ? error.message : typeof error === 'string'
? error : JSON.stringify(error, null, 2)`. -/
def errorToString : JsError → String
  | .errorObj m => m
  | .strErr s => s
  | .other j => j

/-- The `try` block of `writeErrorToFile`: mkdir the per-category error
directory, then write the artifact keyed by the basename of the unit's
identifier. -/
def writeErrorToFileBody (env : FsEnv) (sourceDir category filePath : String)
    (error : JsError) (data : Option String) (fs : FsState) : Except FsErr FsState := do
  let errorsDir := pathJoin (pathJoin sourceDir "errors") category
  let fs1 ← fsMkdir env fs errorsDir
  let filename := pathBasename filePath
  let errorFilePath := pathJoin errorsDir filename
  let errorString := errorToString error
  fsWriteFile env fs1 errorFilePath ⟨errorString, data⟩

/-- `writeErrorToFile`: the body wrapped in its `catch`, which only logs
(`console.error`) and resolves normally. The `Except` return mirrors
whether the translated function could reject its promise. -/
def writeErrorToFile (env : FsEnv) (sourceDir category filePath : String)
    (error : JsError) (data : Option String) (fs : FsState) : Except FsErr FsState :=
  match writeErrorToFileBody env sourceDir category filePath error data fs with
  | .ok fs2 => .ok fs2
  | .error _ => .ok fs

/-! ## Concrete fixtures used by witnesses and counterexamples -/

/-- A well-formed `_sync` object. -/
def sampleSync : JValue :=
  .obj [("rev", .str "1-a"), ("sequence", .num 1),
    ("recent_sequences", .arr [.num 1]),
    ("history", .obj [("revs", .arr [.str "1-a"]), ("parents", .arr [.num (-1)]),
      ("channels", .arr [.null])]),
    ("time_saved", .str "t")]

/-- A playlist item document for language `lang` and component `mid`. -/
def sampleItem (lang : Int) (mid : String) : JValue :=
  .obj [("createdAt", .str "2020"), ("languageId", .num lang),
    ("mediaComponentId", .str mid)]

/-- A valid playlist document with two items. -/
def samplePlaylistDoc : JValue :=
  .obj [("JFM-profiles", .obj [("_sync", sampleSync), ("owner", .str "owner1"),
    ("type", .str "playlist"), ("playlistName", .str "My list"),
    ("playlistItems", .arr [sampleItem 529 "v1", sampleItem 529 "v2"]),
    ("createdAt", .str "2020-01-01"), ("updatedAt", .str "2020-01-02")]),
    ("cas", .num 42)]

/-- A playlist document carrying the deletion marker. -/
def deletedPlaylistDoc : JValue :=
  .obj [("JFM-profiles", .obj [("_deleted", .bool true)])]

/-- A valid user document (email validates and lowercases to `a@b.co`). -/
def sampleUserDoc : JValue :=
  .obj [("JFM-profiles", .obj [("_sync", sampleSync), ("createdAt", .str "c"),
    ("email", .str "A@b.co"), ("nameFirst", .str "Ann"), ("nameLast", .str "Lee"),
    ("owner", .str "owner1"), ("theKeyGuid", .str "g"), ("theKeyRelayGuid", .str "rg"),
    ("theKeySsoGuid", .str "sso1"), ("type", .str "profile"), ("updatedAt", .str "u")]),
    ("cas", .num 7)]

/-- A catalog with two video variants for language 529. -/
def sampleMediaDB : MediaDB :=
  { playlists := []
    playlistItems := []
    videoVariants := [⟨"vv1", "529", "v1"⟩, ⟨"vv2", "529", "v2"⟩] }

/-- A playlist environment whose mapping store resolves `owner1`. -/
def samplePlEnv : PlEnv :=
  { usersDb := [⟨"owner1", "a@b.co", "sso1", "core1", false⟩]
    rand := fun n => ⟨(n / 6) % 36, Nat.mod_lt _ (by omega)⟩
    uuid := fun n => "uuid" ++ toString n
    now := "NOW" }

/-- An empty run accumulator over `sampleMediaDB`. -/
def samplePlAcc : PlRunAcc := ⟨⟨sampleMediaDB, 0, 0⟩, [], 0, 0, []⟩

/-! ## C1 — deleted-marker recognition -/

/-- C1 counterexample: a run over exactly one cached playlist document
carrying the deletion marker performs no database write, yet its summary
has `successCount = 1`, not `0` — the Skipped(deleted) outcome does
contribute to `successCount`, contrary to the claim. -/
theorem C1_counterexample :
    (processPlaylistFile samplePlEnv false "f1.json" (some deletedPlaylistDoc)
      ⟨sampleMediaDB, 0, 0⟩).state.db = sampleMediaDB ∧
    (ingestPlaylists samplePlEnv false [("f1.json", some deletedPlaylistDoc)]
      ⟨sampleMediaDB, 0, 0⟩).map
      (fun r => (r.fst.successCount, r.fst.errorCount)) = some (1, 0) := by
  exact ⟨rfl, rfl⟩

/-- C1 (amended): a cached playlist document whose `JFM-profiles` object
carries `_deleted === true` is classified as the distinct deleted
outcome, no database write occurs and no artifact is recorded, and the
aggregation loop counts the file in `successCount` (never `errorCount`)
without adding it to `processedPlaylists` (hence it contributes nothing
to the item statistics). -/
theorem C1_deleted_skip (env : PlEnv) (dryRun : Bool) (filePath : String)
    (rawData profiles : JValue) (st : PlState) (acc : PlRunAcc)
    (hp : jGet rawData "JFM-profiles" = some profiles)
    (hd : jGet profiles "_deleted" = some (.bool true)) :
    processPlaylistFile env dryRun filePath (some rawData) st =
      ⟨.deleted, st, [], []⟩ ∧
    ingestPlaylistsStep env dryRun acc (filePath, some rawData) =
      { acc with successCount := acc.successCount + 1 } := by
  have hm : playlistDeletedMarker rawData = true := by
    simp [playlistDeletedMarker, hp, hd]
  refine ⟨?_, ?_⟩
  · simp [processPlaylistFile, hm]
  · simp [ingestPlaylistsStep, processPlaylistFile, hm]

/-- C1 witness: the amended statement at the concrete deleted document. -/
theorem C1_deleted_skip_witness :
    jGet deletedPlaylistDoc "JFM-profiles" = some (.obj [("_deleted", JValue.bool true)]) ∧
    (processPlaylistFile samplePlEnv false "f1.json" (some deletedPlaylistDoc)
        ⟨sampleMediaDB, 0, 0⟩ = ⟨.deleted, ⟨sampleMediaDB, 0, 0⟩, [], []⟩ ∧
      ingestPlaylistsStep samplePlEnv false samplePlAcc ("f1.json", some deletedPlaylistDoc) =
        { samplePlAcc with successCount := samplePlAcc.successCount + 1 }) :=
  ⟨rfl, C1_deleted_skip samplePlEnv false "f1.json" deletedPlaylistDoc
    (.obj [("_deleted", JValue.bool true)]) ⟨sampleMediaDB, 0, 0⟩ samplePlAcc rfl rfl⟩

/-! ## More fixtures -/

/-- A valid playlist document whose owner has no mapping row. -/
def orphanPlaylistDoc : JValue :=
  .obj [("JFM-profiles", .obj [("_sync", sampleSync), ("owner", .str "ghost"),
    ("type", .str "playlist"), ("playlistName", .str "Lost"),
    ("playlistItems", .arr [sampleItem 529 "v1"]),
    ("createdAt", .str "2020-01-01"), ("updatedAt", .str "2020-01-02")]),
    ("cas", .num 43)]

/-- The Okta record matching `sampleUserDoc`. -/
def sampleOktaUser : OktaUserRec :=
  { id := "okta1", firstName := some "Ann", lastName := some "Lee"
    status := "ACTIVE", theKeyGuid := "sso1"
    emails := some [⟨"PRIMARY", "VERIFIED", "a@b.co"⟩] }

/-- A user environment whose directory resolves `sso1` to exactly one
record. -/
def sampleUsersEnv : UsersEnv :=
  { okta := fun g => if g = "sso1" then .ok [sampleOktaUser] else .ok []
    uuid := fun n => "uu" ++ toString n }

/-- The empty user-pipeline state. -/
def emptyUsersState : UsersState := ⟨[], [], [], 0⟩

/-- Nine valid playlist files around one invalid file. -/
def validPlFile (k : Nat) : String × Option JValue :=
  ("pl" ++ toString k ++ ".json", some samplePlaylistDoc)

/-- Ten playlist files: nine valid, one invalid in the middle. -/
def tenPlaylistFiles : List (String × Option JValue) :=
  (List.range 5).map validPlFile ++ [("bad.json", some (.obj []))] ++
    ((List.range 4).map (fun k => validPlFile (5 + k)))

/-! ## Counting lemmas for the run loops -/

theorem ingestPlaylistsStep_counts (env : PlEnv) (dryRun : Bool) (acc : PlRunAcc)
    (f : String × Option JValue) :
    (ingestPlaylistsStep env dryRun acc f).successCount +
      (ingestPlaylistsStep env dryRun acc f).errorCount =
      acc.successCount + acc.errorCount + 1 := by
  unfold ingestPlaylistsStep
  rcases h : (processPlaylistFile env dryRun f.fst f.snd acc.state).outcome with p | _ | _ <;>
    simp [h] <;> omega

theorem ingestPlaylists_counts (env : PlEnv) (dryRun : Bool)
    (files : List (String × Option JValue)) :
    ∀ acc : PlRunAcc,
      (files.foldl (ingestPlaylistsStep env dryRun) acc).successCount +
        (files.foldl (ingestPlaylistsStep env dryRun) acc).errorCount =
        acc.successCount + acc.errorCount + files.length := by
  induction files with
  | nil => intro acc; simp
  | cons f rest ih =>
      intro acc
      rw [List.foldl_cons, ih, ingestPlaylistsStep_counts]
      simp only [List.length_cons]
      omega

theorem ingestUsersStep_counts (env : UsersEnv) (dryRun : Bool) (acc : URunAcc)
    (f : String × Option JValue) :
    (ingestUsersStep env dryRun acc f).successCount +
      (ingestUsersStep env dryRun acc f).errorCount =
      acc.successCount + acc.errorCount + 1 := by
  unfold ingestUsersStep
  rcases h : (processUserFile env dryRun f.fst f.snd acc.state).outcome with _ | u <;>
    simp [h] <;> omega

theorem ingestUsers_counts (env : UsersEnv) (dryRun : Bool)
    (files : List (String × Option JValue)) :
    ∀ acc : URunAcc,
      (files.foldl (ingestUsersStep env dryRun) acc).successCount +
        (files.foldl (ingestUsersStep env dryRun) acc).errorCount =
        acc.successCount + acc.errorCount + files.length := by
  induction files with
  | nil => intro acc; simp
  | cons f rest ih =>
      intro acc
      rw [List.foldl_cons, ih, ingestUsersStep_counts]
      simp only [List.length_cons]
      omega

/-! ## C6 — owner-missing rejection -/

/-- C6: a validated, non-deleted playlist whose owner has no local
mapping row is rejected wholesale: the store is untouched, no write is
issued (no header, no item), exactly two artifacts are recorded, and the
aggregation loop charges exactly one error outcome. -/
theorem C6_owner_missing (env : PlEnv) (filePath : String) (rawData : JValue)
    (p : ProcessedPlaylist) (st : PlState) (acc : PlRunAcc)
    (hval : validateAndTransformPlaylist rawData (basenameNoJson filePath) env.now = some p)
    (hmark : playlistDeletedMarker rawData = false)
    (howner : env.usersDb.find? (fun r => r.ownerId == p.owner) = none) :
    processPlaylistFile env false filePath (some rawData) st =
      ⟨.failed, st, [],
        [⟨"playlists", filePath, "User not found for playlist " ++ p.name, .playlist p⟩,
         ⟨"playlists", filePath, "User not found for playlist " ++ p.name, .playlist p⟩]⟩ ∧
    ingestPlaylistsStep env false acc (filePath, some rawData) =
      { acc with
        errorCount := acc.errorCount + 1
        artifacts := acc.artifacts ++
          [⟨"playlists", filePath, "User not found for playlist " ++ p.name, .playlist p⟩,
           ⟨"playlists", filePath, "User not found for playlist " ++ p.name, .playlist p⟩] } := by
  have hproc : ∀ st' : PlState,
      processPlaylistFile env false filePath (some rawData) st' =
      ⟨.failed, st', [],
        [⟨"playlists", filePath, "User not found for playlist " ++ p.name, .playlist p⟩,
         ⟨"playlists", filePath, "User not found for playlist " ++ p.name, .playlist p⟩]⟩ := by
    intro st'
    simp [processPlaylistFile, hmark, hval, howner]
  refine ⟨hproc st, ?_⟩
  simp [ingestPlaylistsStep, hproc acc.state]

/-- C6 witness: the orphan playlist document against the sample
environment. -/
theorem C6_owner_missing_witness :
    (∃ p, validateAndTransformPlaylist orphanPlaylistDoc (basenameNoJson "orphan.json")
        samplePlEnv.now = some p ∧
      playlistDeletedMarker orphanPlaylistDoc = false ∧
      samplePlEnv.usersDb.find? (fun r => r.ownerId == p.owner) = none ∧
      processPlaylistFile samplePlEnv false "orphan.json" (some orphanPlaylistDoc)
        ⟨sampleMediaDB, 0, 0⟩ =
        ⟨.failed, ⟨sampleMediaDB, 0, 0⟩, [],
          [⟨"playlists", "orphan.json", "User not found for playlist " ++ p.name, .playlist p⟩,
           ⟨"playlists", "orphan.json", "User not found for playlist " ++ p.name,
             .playlist p⟩]⟩) := by
  refine ⟨(validateAndTransformPlaylist orphanPlaylistDoc "orphan" "NOW").get (by decide),
    ?_, ?_, ?_, ?_⟩
  · rfl
  · rfl
  · rfl
  · exact (C6_owner_missing samplePlEnv "orphan.json" orphanPlaylistDoc _
      ⟨sampleMediaDB, 0, 0⟩ samplePlAcc rfl rfl rfl).1

/-! ## C3 — per-file failure isolation -/

/-- C3: both orchestrators convert every per-file failure into exactly
one error outcome and keep processing: for every non-empty run, each of
the run's files contributes exactly one outcome
(`successCount + errorCount = totalFiles` — the run never aborts), and
the concrete ten-file playlist run with one invalid file in the middle
yields nine successes, one error, and error artifacts only for the
invalid file. -/
theorem C3_per_file_isolation
    (envP : PlEnv) (dryP : Bool) (filesP : List (String × Option JValue)) (stP : PlState)
    (envU : UsersEnv) (dryU : Bool) (filesU : List (String × Option JValue)) (stU : UsersState)
    (hP : filesP ≠ []) (hU : filesU ≠ []) :
    (∃ out, ingestPlaylists envP dryP filesP stP = some out ∧
      out.fst.successCount + out.fst.errorCount = filesP.length ∧
      out.fst.totalFiles = filesP.length) ∧
    (∃ out, ingestUsers envU dryU filesU stU = some out ∧
      out.fst.successCount + out.fst.errorCount = filesU.length ∧
      out.fst.totalFiles = filesU.length) ∧
    (ingestPlaylists samplePlEnv false tenPlaylistFiles ⟨sampleMediaDB, 0, 0⟩).map
      (fun r => (r.fst.successCount, r.fst.errorCount, r.fst.totalFiles,
        r.snd.snd.map (fun a => (a.category, a.name)))) =
      some (9, 1, 10, [("playlists", "bad"), ("playlists", "bad.json")]) := by
  refine ⟨?_, ?_, by decide⟩
  · have hne : filesP.isEmpty = false := by
      cases filesP with
      | nil => exact absurd rfl hP
      | cons a l => rfl
    unfold ingestPlaylists
    rw [hne]
    simp only [Bool.false_eq_true, if_false]
    refine ⟨_, rfl, ?_, rfl⟩
    simpa using ingestPlaylists_counts envP dryP filesP ⟨stP, [], 0, 0, []⟩
  · have hne : filesU.isEmpty = false := by
      cases filesU with
      | nil => exact absurd rfl hU
      | cons a l => rfl
    unfold ingestUsers
    rw [hne]
    simp only [Bool.false_eq_true, if_false]
    refine ⟨_, rfl, ?_, rfl⟩
    simpa using ingestUsers_counts envU dryU filesU ⟨stU, [], 0, 0, [], []⟩

/-- C3 witness: the isolation statement at the concrete ten-file run and
a one-file user run. -/
theorem C3_per_file_isolation_witness :
    tenPlaylistFiles ≠ [] ∧ [("u1.json", some sampleUserDoc)] ≠ [] ∧
    ((∃ out, ingestPlaylists samplePlEnv false tenPlaylistFiles ⟨sampleMediaDB, 0, 0⟩ =
        some out ∧
      out.fst.successCount + out.fst.errorCount = tenPlaylistFiles.length ∧
      out.fst.totalFiles = tenPlaylistFiles.length) ∧
    (∃ out, ingestUsers sampleUsersEnv false [("u1.json", some sampleUserDoc)]
        emptyUsersState = some out ∧
      out.fst.successCount + out.fst.errorCount = 1 ∧
      out.fst.totalFiles = 1) ∧
    (ingestPlaylists samplePlEnv false tenPlaylistFiles ⟨sampleMediaDB, 0, 0⟩).map
      (fun r => (r.fst.successCount, r.fst.errorCount, r.fst.totalFiles,
        r.snd.snd.map (fun a => (a.category, a.name)))) =
      some (9, 1, 10, [("playlists", "bad"), ("playlists", "bad.json")])) := by
  refine ⟨by unfold tenPlaylistFiles; simp, by simp, ?_⟩
  exact C3_per_file_isolation samplePlEnv false tenPlaylistFiles ⟨sampleMediaDB, 0, 0⟩
    sampleUsersEnv false [("u1.json", some sampleUserDoc)] emptyUsersState
    (by unfold tenPlaylistFiles; simp) (by simp)

/-! ## C4 — dry-run behaviour -/

/-- C4 counterexample: with `dryRun` enabled, a valid user file produces
a `null` outcome — not "the record that would have been persisted" — with
no identity lookup at all, and the run summary counts it as an error
(`errorCount = 1`, `successCount = 0`), contradicting the claim that a
dry-run outcome is counted as a success. -/
theorem C4_counterexample :
    processUserFile sampleUsersEnv true "u1.json" (some sampleUserDoc) emptyUsersState =
      ⟨none, emptyUsersState, [], []⟩ ∧
    (ingestUsers sampleUsersEnv true [("u1.json", some sampleUserDoc)] emptyUsersState).map
      (fun r => (r.fst.successCount, r.fst.errorCount)) = some (0, 1) := by
  exact ⟨rfl, rfl⟩

/-- C4 (amended): with `dryRun` enabled the pipelines validate the file
and then stop before any lookup or write: a valid playlist file returns
the validated record (counted as a success) with no store access, while
a valid user file returns `null` (counted as an error by the summary)
with no directory/auth call and no insert. -/
theorem C4_dry_run (envU : UsersEnv) (fpU : String) (rawU : JValue) (u : UserProfile)
    (stU : UsersState) (envP : PlEnv) (fpP : String) (rawP : JValue)
    (p : ProcessedPlaylist) (stP : PlState)
    (hvalU : validateAndTransformUser rawU = .valid u)
    (hvalP : validateAndTransformPlaylist rawP (basenameNoJson fpP) envP.now = some p)
    (hmarkP : playlistDeletedMarker rawP = false) :
    processUserFile envU true fpU (some rawU) stU = ⟨none, stU, [], []⟩ ∧
    processPlaylistFile envP true fpP (some rawP) stP = ⟨.playlist p, stP, [], []⟩ := by
  constructor
  · simp [processUserFile, hvalU]
  · simp [processPlaylistFile, hmarkP, hvalP]

/-- C4 witness: the amended dry-run statement at the concrete sample
documents. -/
theorem C4_dry_run_witness :
    (∃ u, validateAndTransformUser sampleUserDoc = .valid u) ∧
    (∃ p, validateAndTransformPlaylist samplePlaylistDoc (basenameNoJson "pl.json")
        samplePlEnv.now = some p ∧
      playlistDeletedMarker samplePlaylistDoc = false ∧
      processUserFile sampleUsersEnv true "u1.json" (some sampleUserDoc) emptyUsersState =
        ⟨none, emptyUsersState, [], []⟩ ∧
      processPlaylistFile samplePlEnv true "pl.json" (some samplePlaylistDoc)
        ⟨sampleMediaDB, 0, 0⟩ = ⟨.playlist p, ⟨sampleMediaDB, 0, 0⟩, [], []⟩) := by
  refine ⟨⟨_, rfl⟩, (validateAndTransformPlaylist samplePlaylistDoc "pl" "NOW").get (by decide),
    rfl, rfl, ?_, ?_⟩
  · exact (C4_dry_run sampleUsersEnv "u1.json" sampleUserDoc _ emptyUsersState
      samplePlEnv "pl.json" samplePlaylistDoc _ ⟨sampleMediaDB, 0, 0⟩ rfl rfl rfl).1
  · exact (C4_dry_run sampleUsersEnv "u1.json" sampleUserDoc _ emptyUsersState
      samplePlEnv "pl.json" samplePlaylistDoc _ ⟨sampleMediaDB, 0, 0⟩ rfl rfl rfl).2

/-! ## C5 — rate-limit retry engine -/

/-- The retry loop makes at most `remaining` calls. -/
theorem fetchOktaWithRetryGo_length (fn : Nat → OktaHttpResponse) (baseDelay : Nat) :
    ∀ (remaining attempt : Nat) (now : Int),
      (fetchOktaWithRetryGo fn baseDelay remaining attempt now).callTimes.length ≤
        remaining := by
  intro remaining
  induction remaining with
  | zero => intro attempt now; simp [fetchOktaWithRetryGo]
  | succ r ih =>
      intro attempt now
      unfold fetchOktaWithRetryGo
      by_cases hok : (fn attempt).ok = true
      · simp [hok]
      · by_cases hst : (fn attempt).status = 429
        · by_cases hr : r = 0
          · simp [hok, hst, hr]
          · simp only [hok, hst, hr, Bool.false_eq_true, if_false, if_true, if_pos,
              if_neg, List.length_cons]
            have := ih (attempt + 1) (now + okta429Delay (fn attempt) now attempt baseDelay)
            omega
        · simp [hok, hst]

/-- With at least one attempt left, the first call happens immediately
at the current clock value. -/
theorem fetchOktaWithRetryGo_head (fn : Nat → OktaHttpResponse) (baseDelay : Nat)
    (remaining attempt : Nat) (now : Int) :
    ∃ tail, (fetchOktaWithRetryGo fn baseDelay (remaining + 1) attempt now).callTimes =
      now :: tail := by
  unfold fetchOktaWithRetryGo
  by_cases hok : (fn attempt).ok = true
  · exact ⟨[], by simp [hok]⟩
  · by_cases hst : (fn attempt).status = 429
    · by_cases hr : remaining = 0
      · exact ⟨[], by simp [hok, hst, hr]⟩
      · refine ⟨(fetchOktaWithRetryGo fn baseDelay remaining (attempt + 1)
          (now + okta429Delay (fn attempt) now attempt baseDelay)).callTimes, ?_⟩
        simp [hok, hst, hr]
    · exact ⟨[], by simp [hok, hst]⟩

/-- C5: the retry engine of the directory-service client. With a
reset-time header the delay before the second call is exactly
`max(0, reset·1000 − now + 500 ms buffer)`, so the retry happens no
earlier than the reset time; without the header the delay is
`baseDelay · 2^(attempt−1)`; the number of calls never exceeds the
`maxRetries` ceiling; and a non-quota error response is returned
immediately with no further call. -/
theorem C5_rate_limit_backoff
    (fn : Nat → OktaHttpResponse) (baseDelay : Nat) (k : Nat) (startTime : Int)
    (reset : Nat)
    (fn2 : Nat → OktaHttpResponse) (baseDelay2 remaining2 attempt2 : Nat) (now2 : Int)
    (fn3 : Nat → OktaHttpResponse) (baseDelay3 remaining3 attempt3 : Nat) (now3 : Int)
    (fn4 : Nat → OktaHttpResponse) (baseDelay4 remaining4 attempt4 : Nat) (now4 : Int)
    (hok : (fn 1).ok = false) (hst : (fn 1).status = 429)
    (hreset : (fn 1).rateLimitReset = some reset)
    (hok2 : (fn2 attempt2).ok = false) (hst2 : (fn2 attempt2).status = 429)
    (hreset2 : (fn2 attempt2).rateLimitReset = none)
    (hok4 : (fn4 attempt4).ok = false) (hst4 : (fn4 attempt4).status ≠ 429) :
    (∃ tail, (fetchOktaWithRetry fn (k + 2) baseDelay startTime).callTimes =
        startTime :: (startTime + max 0 ((reset : Int) * 1000 - startTime + 500)) :: tail ∧
      (reset : Int) * 1000 ≤ startTime + max 0 ((reset : Int) * 1000 - startTime + 500)) ∧
    (∃ tail, (fetchOktaWithRetryGo fn2 baseDelay2 (remaining2 + 2) attempt2 now2).callTimes =
        now2 :: (now2 + (baseDelay2 : Int) * 2 ^ (attempt2 - 1)) :: tail) ∧
    (fetchOktaWithRetryGo fn3 baseDelay3 remaining3 attempt3 now3).callTimes.length ≤
      remaining3 ∧
    fetchOktaWithRetryGo fn4 baseDelay4 (remaining4 + 1) attempt4 now4 =
      ⟨some (fn4 attempt4), [now4]⟩ := by
  have hd : okta429Delay (fn 1) startTime 1 baseDelay =
      max 0 ((reset : Int) * 1000 - startTime + 500) := by
    unfold okta429Delay
    rw [hreset]
  have hd2 : okta429Delay (fn2 attempt2) now2 attempt2 baseDelay2 =
      (baseDelay2 : Int) * 2 ^ (attempt2 - 1) := by
    unfold okta429Delay
    rw [hreset2]
  refine ⟨?_, ?_, fetchOktaWithRetryGo_length fn3 baseDelay3 remaining3 attempt3 now3, ?_⟩
  · obtain ⟨tail, htail⟩ := fetchOktaWithRetryGo_head fn baseDelay k (1 + 1)
      (startTime + okta429Delay (fn 1) startTime 1 baseDelay)
    refine ⟨tail, ?_, ?_⟩
    · unfold fetchOktaWithRetry
      unfold fetchOktaWithRetryGo
      simp only [hok, hst, Bool.false_eq_true, if_false, if_true, if_pos, Nat.succ_ne_zero,
        reduceIte]
      rw [htail, hd]
    · have h := le_max_right 0 ((reset : Int) * 1000 - startTime + 500)
      omega
  · obtain ⟨tail, htail⟩ := fetchOktaWithRetryGo_head fn2 baseDelay2 remaining2 (attempt2 + 1)
      (now2 + okta429Delay (fn2 attempt2) now2 attempt2 baseDelay2)
    refine ⟨tail, ?_⟩
    unfold fetchOktaWithRetryGo
    simp only [hok2, hst2, Bool.false_eq_true, if_false, if_true, if_pos, Nat.succ_ne_zero,
      reduceIte]
    rw [htail, hd2]
  · unfold fetchOktaWithRetryGo
    simp only [hok4, Bool.false_eq_true, if_false]
    rw [if_neg hst4]

/-- C5 witness: a directory service whose reset header is 3 seconds in
the future (clock starts at 0): the second call happens at 3500 ms,
no earlier than the 3000 ms reset time. -/
theorem C5_rate_limit_backoff_witness :
    ((fun _ : Nat => OktaHttpResponse.mk false 429 (some 3)) 1).ok = false ∧
    ((∃ tail, (fetchOktaWithRetry (fun _ => ⟨false, 429, some 3⟩) (3 + 2) 5000 0).callTimes =
        0 :: (0 + max 0 ((3 : Int) * 1000 - 0 + 500)) :: tail ∧
      (3 : Int) * 1000 ≤ 0 + max 0 ((3 : Int) * 1000 - 0 + 500)) ∧
    (∃ tail, (fetchOktaWithRetryGo (fun _ => ⟨false, 429, none⟩) 5000 (1 + 2) 1 0).callTimes =
        0 :: (0 + (5000 : Int) * 2 ^ (1 - 1)) :: tail) ∧
    (fetchOktaWithRetryGo (fun _ => ⟨false, 429, none⟩) 5000 5 1 0).callTimes.length ≤ 5 ∧
    fetchOktaWithRetryGo (fun _ => ⟨false, 500, none⟩) 5000 (4 + 1) 1 0 =
      ⟨some ((fun _ : Nat => OktaHttpResponse.mk false 500 none) 1), [0]⟩) := by
  refine ⟨rfl, ?_⟩
  exact C5_rate_limit_backoff (fun _ => ⟨false, 429, some 3⟩) 5000 3 0 3
    (fun _ => ⟨false, 429, none⟩) 5000 1 1 0
    (fun _ => ⟨false, 429, none⟩) 5000 5 1 0
    (fun _ => ⟨false, 500, none⟩) 5000 4 1 0
    rfl rfl rfl rfl rfl rfl rfl (by decide)

/-! ## C10 — the Error Sink never throws -/

/-- C10: `writeErrorToFile` is total. Whatever faults the filesystem
injects into `fs.mkdir` or `fs.writeFile`, the function resolves
normally (`Except.ok`), and when its body failed the filesystem is left
as it was — a failure to record an error is contained entirely inside
the sink. -/
theorem C10_error_sink_total (env : FsEnv) (sourceDir category filePath : String)
    (error : JsError) (data : Option String) (fs : FsState) :
    ∃ fs2, writeErrorToFile env sourceDir category filePath error data fs = .ok fs2 ∧
      (∀ err, writeErrorToFileBody env sourceDir category filePath error data fs = .error err →
        fs2 = fs) := by
  unfold writeErrorToFile
  rcases h : writeErrorToFileBody env sourceDir category filePath error data fs with err0 | fs2
  · exact ⟨fs, rfl, fun _ _ => rfl⟩
  · exact ⟨fs2, rfl, fun err herr => by cases herr⟩

/-- C10 witness: a filesystem whose every `mkdir` call fails; the sink
still resolves normally and leaves the (empty) filesystem untouched. -/
theorem C10_error_sink_total_witness :
    ∃ fs2, writeErrorToFile ⟨fun _ => true, fun _ => false⟩ "tmp" "users" "f.json"
        (.errorObj "boom") none ⟨[], []⟩ = .ok fs2 ∧
      (∀ err, writeErrorToFileBody ⟨fun _ => true, fun _ => false⟩ "tmp" "users" "f.json"
          (.errorObj "boom") none ⟨[], []⟩ = .error err → fs2 = ⟨[], []⟩) :=
  C10_error_sink_total ⟨fun _ => true, fun _ => false⟩ "tmp" "users" "f.json"
    (.errorObj "boom") none ⟨[], []⟩

/-! ## Item-loop lemmas -/

/-- One item step never touches the playlist headers, the catalog, or
the random-stream position. -/
theorem playlistItemStep_frame (env : PlEnv) (p : ProcessedPlaylist) (acc : ItemsAcc)
    (item : ProcessedPlaylistItem) :
    (playlistItemStep env p acc item).state.db.playlists = acc.state.db.playlists ∧
    (playlistItemStep env p acc item).state.db.videoVariants = acc.state.db.videoVariants ∧
    (playlistItemStep env p acc item).state.randIdx = acc.state.randIdx := by
  unfold playlistItemStep
  rcases h : findVideoVariant acc.state.db (toString item.languageId) item.mediaComponentId with
    _ | v
  · exact ⟨rfl, rfl, rfl⟩
  · unfold upsertPlaylistItem
    by_cases hmem : acc.state.db.playlistItems.any
        (fun r => r.id == (match findPlaylistItemByOrder acc.state.db p.id item.order with
          | some r => if r.id = "" then env.uuid acc.state.uuidIdx else r.id
          | none => env.uuid acc.state.uuidIdx)) <;>
      simp [hmem]

/-- Loop version of `playlistItemStep_frame`. -/
theorem processPlaylistItems_frame (env : PlEnv) (p : ProcessedPlaylist) :
    ∀ (items : List ProcessedPlaylistItem) (acc : ItemsAcc),
      (processPlaylistItems env p items acc).state.db.playlists = acc.state.db.playlists ∧
      (processPlaylistItems env p items acc).state.db.videoVariants =
        acc.state.db.videoVariants ∧
      (processPlaylistItems env p items acc).state.randIdx = acc.state.randIdx := by
  intro items
  induction items with
  | nil => intro acc; exact ⟨rfl, rfl, rfl⟩
  | cons item rest ih =>
      intro acc
      have hstep := playlistItemStep_frame env p acc item
      have hrest := ih (playlistItemStep env p acc item)
      unfold processPlaylistItems at hrest ⊢
      rw [List.foldl_cons]
      exact ⟨hrest.1.trans hstep.1, hrest.2.1.trans hstep.2.1, hrest.2.2.trans hstep.2.2⟩

/-- Unfolding of the success path of `processPlaylistFile`: validated,
not deleted, not a dry run, owner resolved, slug determined. -/
theorem processPlaylistFile_success (env : PlEnv) (filePath : String) (rawData : JValue)
    (p : ProcessedPlaylist) (st : PlState) (relatedUser : LocalUserRow)
    (slug : String) (ri : Nat)
    (hval : validateAndTransformPlaylist rawData (basenameNoJson filePath) env.now = some p)
    (hmark : playlistDeletedMarker rawData = false)
    (howner : env.usersDb.find? (fun r => r.ownerId == p.owner) = some relatedUser)
    (hslug : playlistSlugChoice env st p = some (slug, ri)) :
    processPlaylistFile env false filePath (some rawData) st =
      (let db1 := upsertPlaylist st.db p.id
        ⟨p.name, p.note, p.noteModifiedAt, relatedUser.coreId, p.updatedAt⟩
        ⟨p.id, p.name, p.note, p.noteModifiedAt, relatedUser.coreId,
          p.createdAt, p.updatedAt, slug⟩
       let acc := processPlaylistItems env p p.items
         ⟨⟨db1, ri, st.uuidIdx⟩, [.playlistUpsert p.id], [], [], []⟩
       ⟨.playlist { p with savedItems := acc.savedItems, skippedItems := acc.skippedItems },
        acc.state, acc.writes, acc.artifacts⟩) := by
  simp only [processPlaylistFile, hmark, hval, howner, hslug, Bool.false_eq_true, if_false]

/-- `applyPlaylistUpdate` never changes the row's identity fields. -/
theorem applyPlaylistUpdate_identity (row : PlaylistRow) (u : PlaylistUpdateInput) :
    (applyPlaylistUpdate row u).id = row.id ∧
    (applyPlaylistUpdate row u).slug = row.slug ∧
    (applyPlaylistUpdate row u).createdAt = row.createdAt :=
  ⟨rfl, rfl, rfl⟩

/-- `find?` by id commutes with the in-place update of the matching
row. -/
theorem find_update_by_id (id : String) (upd : PlaylistUpdateInput) :
    ∀ (l : List PlaylistRow) (row : PlaylistRow),
      l.find? (fun r => r.id == id) = some row →
      (l.map (fun r => if r.id == id then applyPlaylistUpdate r upd else r)).find?
        (fun r => r.id == id) = some (applyPlaylistUpdate row upd) := by
  intro l
  induction l with
  | nil => intro row h; cases h
  | cons a rest ih =>
      intro row h
      by_cases ha : a.id = id
      · have hrow : a = row := by simpa [List.find?_cons, ha] using h
        subst hrow
        simp [List.map_cons, ha, List.find?_cons, applyPlaylistUpdate]
      · have h2 : rest.find? (fun r => r.id == id) = some row := by
          simpa [List.find?_cons, ha] using h
        simpa [List.map_cons, ha, List.find?_cons, -List.find?_map] using ih row h2

/-- The upserted playlist header is present afterwards. -/
theorem upsertPlaylist_mem (db : MediaDB) (id : String) (upd : PlaylistUpdateInput)
    (create : PlaylistRow) (hc : create.id = id) :
    ∃ r, (upsertPlaylist db id upd create).playlists.find? (fun r => r.id == id) = some r := by
  unfold upsertPlaylist
  by_cases hany : db.playlists.any (fun r => r.id == id)
  · rw [if_pos hany]
    obtain ⟨a, ha, hpa⟩ := List.any_eq_true.mp hany
    have : ((db.playlists.map
        (fun r => if r.id == id then applyPlaylistUpdate r upd else r)).find?
          (fun r => r.id == id)).isSome := by
      rw [List.find?_isSome]
      refine ⟨if a.id == id then applyPlaylistUpdate a upd else a, List.mem_map_of_mem _ ha, ?_⟩
      rw [if_pos hpa]
      simpa using hpa
    obtain ⟨r, hr⟩ := Option.isSome_iff_exists.mp this
    exact ⟨r, hr⟩
  · rw [if_neg hany]
    have : ((db.playlists ++ [create]).find? (fun r => r.id == id)).isSome := by
      rw [List.find?_isSome]
      exact ⟨create, by simp, by simp [hc]⟩
    obtain ⟨r, hr⟩ := Option.isSome_iff_exists.mp this
    exact ⟨r, hr⟩

/-! ## C8 — re-ingestion preserves slug and creation timestamp -/

/-- C8: re-ingesting a playlist that already exists in the store reuses
the stored slug (no slug generation: the random stream is untouched) and
updates the header in place through `applyPlaylistUpdate`, which writes
only the mutable fields — the persisted row afterwards is exactly the
old row with `name`, `note`, `noteUpdatedAt`, `ownerId` and `updatedAt`
replaced, and its `slug` and `createdAt` are unchanged. -/
theorem C8_reingest_preserves_slug (env : PlEnv) (filePath : String) (rawData : JValue)
    (p : ProcessedPlaylist) (st : PlState) (row : PlaylistRow) (relatedUser : LocalUserRow)
    (hval : validateAndTransformPlaylist rawData (basenameNoJson filePath) env.now = some p)
    (hmark : playlistDeletedMarker rawData = false)
    (howner : env.usersDb.find? (fun r => r.ownerId == p.owner) = some relatedUser)
    (hex : findPlaylistById st.db p.id = some row)
    (hslug : ¬ row.slug = "") :
    playlistSlugChoice env st p = some (row.slug, st.randIdx) ∧
    (processPlaylistFile env false filePath (some rawData) st).state.randIdx = st.randIdx ∧
    findPlaylistById (processPlaylistFile env false filePath (some rawData) st).state.db p.id =
      some (applyPlaylistUpdate row
        ⟨p.name, p.note, p.noteModifiedAt, relatedUser.coreId, p.updatedAt⟩) ∧
    (applyPlaylistUpdate row
      ⟨p.name, p.note, p.noteModifiedAt, relatedUser.coreId, p.updatedAt⟩).slug = row.slug ∧
    (applyPlaylistUpdate row
      ⟨p.name, p.note, p.noteModifiedAt, relatedUser.coreId, p.updatedAt⟩).createdAt =
      row.createdAt := by
  have hex2 : st.db.playlists.find? (fun r => r.id == p.id) = some row := hex
  have hch : playlistSlugChoice env st p = some (row.slug, st.randIdx) := by
    unfold playlistSlugChoice
    rw [hex]
    simp [hslug]
  have hrun := processPlaylistFile_success env filePath rawData p st relatedUser row.slug
    st.randIdx hval hmark howner hch
  have hmem := List.mem_of_find?_eq_some hex2
  have hpred := List.find?_some hex2
  have hany : st.db.playlists.any (fun r => r.id == p.id) = true :=
    List.any_eq_true.mpr ⟨row, hmem, hpred⟩
  refine ⟨hch, ?_, ?_, rfl, rfl⟩
  · rw [hrun]
    exact (processPlaylistItems_frame env p p.items _).2.2
  · rw [hrun]
    have hpl := (processPlaylistItems_frame env p p.items
      ⟨⟨upsertPlaylist st.db p.id ⟨p.name, p.note, p.noteModifiedAt, relatedUser.coreId,
          p.updatedAt⟩ ⟨p.id, p.name, p.note, p.noteModifiedAt, relatedUser.coreId,
          p.createdAt, p.updatedAt, row.slug⟩, st.randIdx, st.uuidIdx⟩,
        [.playlistUpsert p.id], [], [], []⟩).1
    show findPlaylistById (processPlaylistItems env p p.items _).state.db p.id = _
    unfold findPlaylistById
    rw [hpl]
    show (upsertPlaylist st.db p.id _ _).playlists.find? (fun r => r.id == p.id) = _
    unfold upsertPlaylist
    rw [if_pos hany]
    exact find_update_by_id p.id _ st.db.playlists row hex2

/-- A pre-existing playlist header row for `pl0`. -/
def existingRow : PlaylistRow :=
  ⟨"pl0", "Old", "old note", "2019", "coreX", "2019-01-01", "2019-01-02", "zzzzzz"⟩

/-- A store that already contains `existingRow`. -/
def mediaDBWithExisting : MediaDB :=
  { playlists := [existingRow], playlistItems := [], videoVariants := sampleMediaDB.videoVariants }

/-- C8 witness: re-ingesting `pl0` over a store that already holds it
keeps slug `zzzzzz` and the old creation timestamp. -/
theorem C8_reingest_preserves_slug_witness :
    ∃ p, validateAndTransformPlaylist samplePlaylistDoc (basenameNoJson "pl0.json")
        samplePlEnv.now = some p ∧
      playlistDeletedMarker samplePlaylistDoc = false ∧
      samplePlEnv.usersDb.find? (fun r => r.ownerId == p.owner) =
        some ⟨"owner1", "a@b.co", "sso1", "core1", false⟩ ∧
      findPlaylistById (⟨mediaDBWithExisting, 0, 0⟩ : PlState).db p.id = some existingRow ∧
      ¬ existingRow.slug = "" ∧
      (playlistSlugChoice samplePlEnv ⟨mediaDBWithExisting, 0, 0⟩ p =
          some (existingRow.slug, 0) ∧
        (processPlaylistFile samplePlEnv false "pl0.json" (some samplePlaylistDoc)
          ⟨mediaDBWithExisting, 0, 0⟩).state.randIdx = 0 ∧
        findPlaylistById (processPlaylistFile samplePlEnv false "pl0.json"
            (some samplePlaylistDoc) ⟨mediaDBWithExisting, 0, 0⟩).state.db p.id =
          some (applyPlaylistUpdate existingRow
            ⟨p.name, p.note, p.noteModifiedAt, "core1", p.updatedAt⟩) ∧
        (applyPlaylistUpdate existingRow
          ⟨p.name, p.note, p.noteModifiedAt, "core1", p.updatedAt⟩).slug = existingRow.slug ∧
        (applyPlaylistUpdate existingRow
          ⟨p.name, p.note, p.noteModifiedAt, "core1", p.updatedAt⟩).createdAt =
          existingRow.createdAt) := by
  refine ⟨(validateAndTransformPlaylist samplePlaylistDoc (basenameNoJson "pl0.json")
      samplePlEnv.now).get (by decide),
    (Option.some_get _).symm, rfl, by decide, by decide, by decide, ?_⟩
  exact C8_reingest_preserves_slug samplePlEnv "pl0.json" samplePlaylistDoc _
    ⟨mediaDBWithExisting, 0, 0⟩ existingRow ⟨"owner1", "a@b.co", "sso1", "core1", false⟩
    (Option.some_get _).symm rfl (by decide) (by decide) (by decide)

/-! ## C7 — independent item reconciliation -/

/-- Whether an item's `(languageId, mediaComponentId)` catalog reference
resolves in `db`. -/
def itemResolvable (db : MediaDB) (item : ProcessedPlaylistItem) : Bool :=
  (findVideoVariant db (toString item.languageId) item.mediaComponentId).isSome

/-- `itemResolvable` only reads the catalog. -/
theorem itemResolvable_congr (db db2 : MediaDB) (item : ProcessedPlaylistItem)
    (h : db2.videoVariants = db.videoVariants) :
    itemResolvable db2 item = itemResolvable db item := by
  unfold itemResolvable findVideoVariant
  rw [h]

theorem processPlaylistItems_cons (env : PlEnv) (p : ProcessedPlaylist)
    (item : ProcessedPlaylistItem) (rest : List ProcessedPlaylistItem) (acc : ItemsAcc) :
    processPlaylistItems env p (item :: rest) acc =
      processPlaylistItems env p rest (playlistItemStep env p acc item) := rfl

/-- Characterisation of the item loop: the saved items are exactly the
resolvable ones (in order), the skipped items exactly the unresolvable
ones, one artifact is recorded per skipped item, and one write is issued
per saved item. -/
theorem processPlaylistItems_spec (env : PlEnv) (p : ProcessedPlaylist) :
    ∀ (items : List ProcessedPlaylistItem) (acc : ItemsAcc),
      (processPlaylistItems env p items acc).savedItems =
        acc.savedItems ++ items.filter (fun i => itemResolvable acc.state.db i) ∧
      (processPlaylistItems env p items acc).skippedItems =
        acc.skippedItems ++ items.filter (fun i => !itemResolvable acc.state.db i) ∧
      (processPlaylistItems env p items acc).artifacts =
        acc.artifacts ++
          (items.filter (fun i => !itemResolvable acc.state.db i)).map (mkItemArtifact p) ∧
      (processPlaylistItems env p items acc).writes.length =
        acc.writes.length + (items.filter (fun i => itemResolvable acc.state.db i)).length := by
  intro items
  induction items with
  | nil => intro acc; simp [processPlaylistItems]
  | cons item rest ih =>
      intro acc
      rw [processPlaylistItems_cons]
      have hVres : (playlistItemStep env p acc item).state.db.videoVariants =
          acc.state.db.videoVariants := (playlistItemStep_frame env p acc item).2.1
      have hfix : ∀ i ∈ rest,
          itemResolvable (playlistItemStep env p acc item).state.db i =
          itemResolvable acc.state.db i :=
        fun i _ => itemResolvable_congr acc.state.db _ i hVres
      have hfixNeg : ∀ i ∈ rest,
          (!itemResolvable (playlistItemStep env p acc item).state.db i) =
          (!itemResolvable acc.state.db i) := fun i hi => by rw [hfix i hi]
      obtain ⟨ihs, ihk, iha, ihw⟩ := ih (playlistItemStep env p acc item)
      rw [List.filter_congr hfix] at ihs ihw
      rw [List.filter_congr hfixNeg] at ihk iha
      rcases hres : findVideoVariant acc.state.db (toString item.languageId)
        item.mediaComponentId with _ | v
      · have hri : itemResolvable acc.state.db item = false := by
          unfold itemResolvable
          rw [hres]
          rfl
        have hstep : playlistItemStep env p acc item =
            { acc with
              artifacts := acc.artifacts ++ [mkItemArtifact p item]
              skippedItems := acc.skippedItems ++ [item] } := by
          unfold playlistItemStep
          rw [hres]
        refine ⟨?_, ?_, ?_, ?_⟩
        · rw [ihs, hstep, List.filter_cons_of_neg (by simp [hri])]
        · rw [ihk, hstep, List.filter_cons_of_pos (by simp [hri])]
          simp
        · rw [iha, hstep, List.filter_cons_of_pos (by simp [hri])]
          simp
        · rw [ihw, hstep, List.filter_cons_of_neg (by simp [hri])]
      · have hri : itemResolvable acc.state.db item = true := by
          unfold itemResolvable
          rw [hres]
          rfl
        have hsv : (playlistItemStep env p acc item).savedItems = acc.savedItems ++ [item] := by
          unfold playlistItemStep
          rw [hres]
        have hsk : (playlistItemStep env p acc item).skippedItems = acc.skippedItems := by
          unfold playlistItemStep
          rw [hres]
        have har : (playlistItemStep env p acc item).artifacts = acc.artifacts := by
          unfold playlistItemStep
          rw [hres]
        have hwr : (playlistItemStep env p acc item).writes.length = acc.writes.length + 1 := by
          unfold playlistItemStep
          rw [hres]
          simp
        refine ⟨?_, ?_, ?_, ?_⟩
        · rw [ihs, hsv, List.filter_cons_of_pos (by simp [hri])]
          simp
        · rw [ihk, hsk, List.filter_cons_of_neg (by simp [hri])]
        · rw [iha, har, List.filter_cons_of_neg (by simp [hri])]
        · have he : List.filter (itemResolvable acc.state.db) rest =
              List.filter (fun i => itemResolvable acc.state.db i) rest := rfl
          rw [ihw, hwr, he, List.filter_cons_of_pos (by simp [hri])]
          simp
          omega

/-- `upsertPlaylist` never touches the catalog. -/
theorem upsertPlaylist_videoVariants (db : MediaDB) (id : String)
    (upd : PlaylistUpdateInput) (create : PlaylistRow) :
    (upsertPlaylist db id upd create).videoVariants = db.videoVariants := by
  unfold upsertPlaylist
  split <;> rfl

/-- C7: on the success path every item is reconciled independently — the
saved items are exactly the resolvable ones and the skipped items exactly
the unresolvable ones, one `playListItems` artifact (carrying playlist id,
playlist name and the item) is recorded per skipped item, one write is
issued per saved item on top of the header upsert, the playlist header is
persisted regardless, and an item whose `(playlistId, order)` key already
has a row with a non-empty (truthy) id is upserted under that row's
existing id without growing the item table. -/
theorem C7_item_independence (env : PlEnv) (filePath : String) (rawData : JValue)
    (p : ProcessedPlaylist) (st : PlState) (relatedUser : LocalUserRow)
    (slug : String) (ri : Nat)
    (q : ProcessedPlaylist) (acc2 : ItemsAcc) (item2 : ProcessedPlaylistItem)
    (v2 : VideoVariantRow) (r2 : PlaylistItemRow)
    (hval : validateAndTransformPlaylist rawData (basenameNoJson filePath) env.now = some p)
    (hmark : playlistDeletedMarker rawData = false)
    (howner : env.usersDb.find? (fun r => r.ownerId == p.owner) = some relatedUser)
    (hslug : playlistSlugChoice env st p = some (slug, ri))
    (hv2 : findVideoVariant acc2.state.db (toString item2.languageId)
      item2.mediaComponentId = some v2)
    (hr2 : findPlaylistItemByOrder acc2.state.db q.id item2.order = some r2)
    (hid2 : ¬ r2.id = "") :
    (∃ p2, (processPlaylistFile env false filePath (some rawData) st).outcome =
        .playlist p2 ∧
      p2.savedItems = p.items.filter (fun i => itemResolvable st.db i) ∧
      p2.skippedItems = p.items.filter (fun i => !itemResolvable st.db i)) ∧
    (processPlaylistFile env false filePath (some rawData) st).artifacts =
      (p.items.filter (fun i => !itemResolvable st.db i)).map (mkItemArtifact p) ∧
    (processPlaylistFile env false filePath (some rawData) st).writes.length =
      1 + (p.items.filter (fun i => itemResolvable st.db i)).length ∧
    (∃ r, findPlaylistById
      (processPlaylistFile env false filePath (some rawData) st).state.db p.id = some r) ∧
    (playlistItemStep env q acc2 item2).writes =
      acc2.writes ++ [.playlistItemUpsert r2.id] ∧
    (playlistItemStep env q acc2 item2).state.db.playlistItems.length =
      acc2.state.db.playlistItems.length := by
  have hrun := processPlaylistFile_success env filePath rawData p st relatedUser slug ri
    hval hmark howner hslug
  let A : ItemsAcc :=
    ⟨⟨upsertPlaylist st.db p.id
        ⟨p.name, p.note, p.noteModifiedAt, relatedUser.coreId, p.updatedAt⟩
        ⟨p.id, p.name, p.note, p.noteModifiedAt, relatedUser.coreId,
          p.createdAt, p.updatedAt, slug⟩, ri, st.uuidIdx⟩,
      [.playlistUpsert p.id], [], [], []⟩
  have hrun2 : processPlaylistFile env false filePath (some rawData) st =
      ⟨.playlist { p with
          savedItems := (processPlaylistItems env p p.items A).savedItems
          skippedItems := (processPlaylistItems env p p.items A).skippedItems },
        (processPlaylistItems env p p.items A).state,
        (processPlaylistItems env p p.items A).writes,
        (processPlaylistItems env p p.items A).artifacts⟩ := hrun
  have hV1 : A.state.db.videoVariants = st.db.videoVariants :=
    upsertPlaylist_videoVariants _ _ _ _
  obtain ⟨hs, hk, ha, hw⟩ := processPlaylistItems_spec env p p.items A
  have hcongr : ∀ i ∈ p.items,
      itemResolvable A.state.db i = itemResolvable st.db i :=
    fun i _ => itemResolvable_congr st.db A.state.db i hV1
  have hcongrNeg : ∀ i ∈ p.items,
      (!itemResolvable A.state.db i) = (!itemResolvable st.db i) :=
    fun i hi => by rw [hcongr i hi]
  rw [List.filter_congr hcongr] at hs hw
  rw [List.filter_congr hcongrNeg] at hk ha
  refine ⟨⟨{ p with
      savedItems := (processPlaylistItems env p p.items A).savedItems
      skippedItems := (processPlaylistItems env p p.items A).skippedItems },
      by rw [hrun2], ?_, ?_⟩, ?_, ?_, ?_, ?_, ?_⟩
  · dsimp only
    rw [hs]
    simp
  · dsimp only
    rw [hk]
    simp
  · rw [hrun2]
    dsimp only
    rw [ha]
    simp
  · rw [hrun2]
    dsimp only
    rw [hw]
    simp [Nat.add_comm]
  · rw [hrun2]
    dsimp only
    have hpl := (processPlaylistItems_frame env p p.items A).1
    unfold findPlaylistById
    rw [hpl]
    exact upsertPlaylist_mem st.db p.id _ _ rfl
  · unfold playlistItemStep
    rw [hv2, hr2]
    dsimp only
    rw [if_neg hid2]
  · unfold playlistItemStep
    rw [hv2, hr2]
    dsimp only
    rw [if_neg hid2]
    have hmem := List.mem_of_find?_eq_some hr2
    have hany : acc2.state.db.playlistItems.any (fun r => r.id == r2.id) = true :=
      List.any_eq_true.mpr ⟨r2, hmem, by simp⟩
    unfold upsertPlaylistItem
    rw [if_pos hany]
    simp

/-- A playlist document with five items; item 3 references a component
absent from the catalog. -/
def fiveItemPlaylistDoc : JValue :=
  .obj [("JFM-profiles", .obj [("_sync", sampleSync), ("owner", .str "owner1"),
    ("type", .str "playlist"), ("playlistName", .str "Five"),
    ("playlistItems", .arr [sampleItem 529 "v1", sampleItem 529 "v2",
      sampleItem 529 "missing", sampleItem 529 "v1", sampleItem 529 "v2"]),
    ("createdAt", .str "2020-01-01"), ("updatedAt", .str "2020-01-02")]),
    ("cas", .num 44)]

/-- The validated five-item playlist. -/
def fivePlaylist : ProcessedPlaylist :=
  (validateAndTransformPlaylist fiveItemPlaylistDoc "five" "NOW").get (by decide)

/-- First item of the five-item playlist. -/
def item2c : ProcessedPlaylistItem := ⟨0, "2020", "2020", "v1", 529, none⟩

/-- A pre-existing item row under the `(five, 0)` composite key. -/
def r2c : PlaylistItemRow := ⟨"itm1", "five", 0, "2019", "2019", "vv1"⟩

/-- A store already holding `r2c`. -/
def dbWithItemRow : MediaDB :=
  { playlists := [], playlistItems := [r2c], videoVariants := sampleMediaDB.videoVariants }

/-- Item accumulator over `dbWithItemRow`. -/
def itemAcc2 : ItemsAcc := ⟨⟨dbWithItemRow, 0, 0⟩, [], [], [], []⟩

/-- C7 witness: the five-item playlist yields 4 saved and 1 skipped item,
the header is persisted, and the pre-existing `(five, 0)` item keeps its
non-empty id `itm1`. -/
theorem C7_item_independence_witness :
    validateAndTransformPlaylist fiveItemPlaylistDoc (basenameNoJson "five.json")
        samplePlEnv.now = some fivePlaylist ∧
    playlistDeletedMarker fiveItemPlaylistDoc = false ∧
    samplePlEnv.usersDb.find? (fun r => r.ownerId == fivePlaylist.owner) =
      some ⟨"owner1", "a@b.co", "sso1", "core1", false⟩ ∧
    playlistSlugChoice samplePlEnv ⟨sampleMediaDB, 0, 0⟩ fivePlaylist = some ("aaaaaa", 6) ∧
    ¬ r2c.id = "" ∧
    (fivePlaylist.items.filter (fun i => itemResolvable sampleMediaDB i)).length = 4 ∧
    (fivePlaylist.items.filter (fun i => !itemResolvable sampleMediaDB i)).length = 1 ∧
    ((∃ p2, (processPlaylistFile samplePlEnv false "five.json" (some fiveItemPlaylistDoc)
        ⟨sampleMediaDB, 0, 0⟩).outcome = .playlist p2 ∧
      p2.savedItems = fivePlaylist.items.filter (fun i => itemResolvable sampleMediaDB i) ∧
      p2.skippedItems = fivePlaylist.items.filter (fun i => !itemResolvable sampleMediaDB i)) ∧
    (processPlaylistFile samplePlEnv false "five.json" (some fiveItemPlaylistDoc)
        ⟨sampleMediaDB, 0, 0⟩).artifacts =
      (fivePlaylist.items.filter (fun i => !itemResolvable sampleMediaDB i)).map
        (mkItemArtifact fivePlaylist) ∧
    (processPlaylistFile samplePlEnv false "five.json" (some fiveItemPlaylistDoc)
        ⟨sampleMediaDB, 0, 0⟩).writes.length =
      1 + (fivePlaylist.items.filter (fun i => itemResolvable sampleMediaDB i)).length ∧
    (∃ r, findPlaylistById (processPlaylistFile samplePlEnv false "five.json"
        (some fiveItemPlaylistDoc) ⟨sampleMediaDB, 0, 0⟩).state.db fivePlaylist.id =
        some r) ∧
    (playlistItemStep samplePlEnv fivePlaylist itemAcc2 item2c).writes =
      itemAcc2.writes ++ [.playlistItemUpsert r2c.id] ∧
    (playlistItemStep samplePlEnv fivePlaylist itemAcc2 item2c).state.db.playlistItems.length =
      itemAcc2.state.db.playlistItems.length) := by
  refine ⟨by decide, rfl, by decide, by decide, by decide, by decide, by decide, ?_⟩
  exact C7_item_independence samplePlEnv "five.json" fiveItemPlaylistDoc fivePlaylist
    ⟨sampleMediaDB, 0, 0⟩ ⟨"owner1", "a@b.co", "sso1", "core1", false⟩ "aaaaaa" 6
    fivePlaylist itemAcc2 item2c ⟨"vv1", "529", "v1"⟩ r2c
    (by decide) rfl (by decide) (by decide) (by decide) (by decide) (by decide)

/-! ## C9 — slug generation -/

/-- A successful `generateUniqueSlug` returns a slug that was checked
free in the store, drawn in one of the at most `rem` attempts. -/
theorem generateUniqueSlugGo_some (rand : Nat → Fin 36) (db : MediaDB) :
    ∀ (rem idx : Nat) (slug : String) (ri : Nat),
      generateUniqueSlugGo rand db idx rem = some (slug, ri) →
      findPlaylistBySlug db slug = none ∧
        ∃ k, k < rem ∧ slug = mkSlug rand (idx + 6 * k) := by
  intro rem
  induction rem with
  | zero => intro idx slug ri h; cases h
  | succ r ih =>
      intro idx slug ri h
      unfold generateUniqueSlugGo at h
      by_cases hc : (findPlaylistBySlug db (mkSlug rand idx)).isSome = true
      · rw [if_pos hc] at h
        obtain ⟨hnone, k, hk, heq⟩ := ih (idx + 6) slug ri h
        refine ⟨hnone, k + 1, by omega, ?_⟩
        rw [heq]
        congr 1
        omega
      · rw [if_neg hc] at h
        cases h
        refine ⟨Option.not_isSome_iff_eq_none.mp hc, 0, by omega, ?_⟩
        congr 1

/-- When every candidate collides, the attempt loop exhausts and throws. -/
theorem generateUniqueSlugGo_none (rand : Nat → Fin 36) (db : MediaDB) :
    ∀ (rem idx : Nat),
      (∀ k, k < rem → (findPlaylistBySlug db (mkSlug rand (idx + 6 * k))).isSome = true) →
      generateUniqueSlugGo rand db idx rem = none := by
  intro rem
  induction rem with
  | zero => intro idx h; rfl
  | succ r ih =>
      intro idx h
      unfold generateUniqueSlugGo
      have h0 := h 0 (by omega)
      rw [show idx + 6 * 0 = idx from by omega] at h0
      rw [if_pos h0]
      refine ih (idx + 6) (fun k hk => ?_)
      have h2 := h (k + 1) (by omega)
      rw [show idx + 6 * (k + 1) = idx + 6 + 6 * k from by omega] at h2
      exact h2

/-- C9: a candidate slug is a six-character string over the lowercase
alphanumeric alphabet; a successful generation returns a slug that was
checked absent from the store within the 10-attempt bound; and when all
ten candidates collide, `processPlaylistFile` fails only that playlist —
the store is untouched, one artifact records the exhaustion error, and
the aggregation loop charges one error and carries on. -/
theorem C9_slug_generation (rand : Nat → Fin 36) (db : MediaDB) (idx : Nat)
    (slug0 : String) (ri0 : Nat)
    (env : PlEnv) (filePath : String) (rawData : JValue) (p : ProcessedPlaylist)
    (st : PlState) (relatedUser : LocalUserRow)
    (accP : List ProcessedPlaylist) (accS accE : Nat) (accA : List PlArtifact)
    (hgen : generateUniqueSlug rand db idx = some (slug0, ri0))
    (hval : validateAndTransformPlaylist rawData (basenameNoJson filePath) env.now = some p)
    (hmark : playlistDeletedMarker rawData = false)
    (howner : env.usersDb.find? (fun r => r.ownerId == p.owner) = some relatedUser)
    (hnew : findPlaylistById st.db p.id = none)
    (hcollide : ∀ k, k < 10 → (findPlaylistBySlug st.db
      (mkSlug env.rand (st.randIdx + 6 * k))).isSome = true) :
    (mkSlug rand idx).length = 6 ∧
    (mkSlug rand idx).data.all (fun c => slugCharsList.contains c) = true ∧
    findPlaylistBySlug db slug0 = none ∧
    (∃ k, k < 10 ∧ slug0 = mkSlug rand (idx + 6 * k)) ∧
    processPlaylistFile env false filePath (some rawData) st =
      ⟨.failed, { st with randIdx := st.randIdx + 60 }, [],
        [⟨"playlists", filePath, "Unable to generate unique slug after 10 attempts",
          .playlist p⟩]⟩ ∧
    ingestPlaylistsStep env false ⟨st, accP, accS, accE, accA⟩ (filePath, some rawData) =
      ⟨{ st with randIdx := st.randIdx + 60 }, accP, accS, accE + 1,
        accA ++ [⟨"playlists", filePath,
          "Unable to generate unique slug after 10 attempts", .playlist p⟩]⟩ := by
  have hchoice : playlistSlugChoice env st p = none := by
    unfold playlistSlugChoice
    rw [hnew]
    exact generateUniqueSlugGo_none env.rand st.db 10 st.randIdx hcollide
  have hfail : processPlaylistFile env false filePath (some rawData) st =
      ⟨.failed, { st with randIdx := st.randIdx + 60 }, [],
        [⟨"playlists", filePath, "Unable to generate unique slug after 10 attempts",
          .playlist p⟩]⟩ := by
    simp [processPlaylistFile, hmark, hval, howner, hchoice]
  obtain ⟨hfree, hk⟩ := generateUniqueSlugGo_some rand db 10 idx slug0 ri0 hgen
  refine ⟨rfl, ?_, hfree, hk, hfail, ?_⟩
  · rw [List.all_eq_true]
    intro c hc
    have : c ∈ (List.range 6).map (fun i => slugCharAt (rand (idx + i))) := hc
    obtain ⟨i, _, hci⟩ := List.mem_map.mp this
    rw [← hci]
    unfold slugCharAt
    exact List.elem_eq_true_of_mem (List.get_mem _ _ _)
  · simp [ingestPlaylistsStep, hfail]

/-- An environment whose random stream always draws character 0 (`a`),
so every candidate slug is `aaaaaa`. -/
def constRandEnv : PlEnv :=
  { usersDb := samplePlEnv.usersDb
    rand := fun _ => ⟨0, by omega⟩
    uuid := samplePlEnv.uuid
    now := "NOW" }

/-- A store whose only playlist already occupies slug `aaaaaa`. -/
def dbColliding : MediaDB :=
  { playlists := [⟨"other", "O", "", "", "c", "", "", "aaaaaa"⟩]
    playlistItems := []
    videoVariants := [] }

/-- C9 witness: generation succeeds on a free store (slug `aaaaaa`,
checked absent), and over `dbColliding` all ten constant candidates
collide, so the sample playlist alone fails while the accumulator keeps
its success count. -/
theorem C9_slug_generation_witness :
    generateUniqueSlug samplePlEnv.rand sampleMediaDB 0 = some ("aaaaaa", 6) ∧
    (∀ k, k < 10 → (findPlaylistBySlug dbColliding
      (mkSlug constRandEnv.rand (0 + 6 * k))).isSome = true) ∧
    ((mkSlug samplePlEnv.rand 0).length = 6 ∧
    (mkSlug samplePlEnv.rand 0).data.all (fun c => slugCharsList.contains c) = true ∧
    findPlaylistBySlug sampleMediaDB "aaaaaa" = none ∧
    (∃ k, k < 10 ∧ "aaaaaa" = mkSlug samplePlEnv.rand (0 + 6 * k)) ∧
    processPlaylistFile constRandEnv false "pl9.json" (some samplePlaylistDoc)
      ⟨dbColliding, 0, 0⟩ =
      ⟨.failed, { (⟨dbColliding, 0, 0⟩ : PlState) with randIdx := 0 + 60 }, [],
        [⟨"playlists", "pl9.json", "Unable to generate unique slug after 10 attempts",
          .playlist ((validateAndTransformPlaylist samplePlaylistDoc "pl9" "NOW").get
            (by decide))⟩]⟩ ∧
    ingestPlaylistsStep constRandEnv false ⟨⟨dbColliding, 0, 0⟩, [], 3, 0, []⟩
      ("pl9.json", some samplePlaylistDoc) =
      ⟨{ (⟨dbColliding, 0, 0⟩ : PlState) with randIdx := 0 + 60 }, [], 3, 0 + 1,
        [] ++ [⟨"playlists", "pl9.json", "Unable to generate unique slug after 10 attempts",
          .playlist ((validateAndTransformPlaylist samplePlaylistDoc "pl9" "NOW").get
            (by decide))⟩]⟩) := by
  refine ⟨by decide, by decide, ?_⟩
  exact C9_slug_generation samplePlEnv.rand sampleMediaDB 0 "aaaaaa" 6
    constRandEnv "pl9.json" samplePlaylistDoc
    ((validateAndTransformPlaylist samplePlaylistDoc "pl9" "NOW").get (by decide))
    ⟨dbColliding, 0, 0⟩ ⟨"owner1", "a@b.co", "sso1", "core1", false⟩ [] 3 0 []
    (by decide) (by decide) rfl (by decide) (by decide) (by decide)

/-! ## C2 — idempotency of user ingestion

The strategy: `UserFileInv env raw t` states that state `t` carries the
residue of having processed file `raw` once — enough to guarantee that
re-processing the file inserts no local-mapping row and no Core row.
The invariant is established by one run of `processUserFile`
(`UserFileInv_after`), is stable under arbitrary further processing
(`UserFileInv_mono` plus monotonicity), and suffices
(`UserFileInv_stable`); folding these over a file list gives the
two-run theorem. -/

/-- The looked-up Firebase user has exactly the queried email. -/
theorem fbGetUserByEmail_email (fb : List FirebaseUserRec) (e : String)
    (u : FirebaseUserRec) (h : fbGetUserByEmail fb e = some u) : u.email = some e := by
  have := List.find?_some h
  simpa using this

/-- Branch equation of `saveUserToDatabases` when a Core row with the
email already exists. -/
theorem saveUserToDatabases_eq_reuse (env : UsersEnv) (fp : String)
    (userData : UserProfile) (oktaGuid : String) (fu : FirebaseUserRec) (st : UsersState)
    (calls : List UserCall) (arts : List UArtifact) (fbe : String) (c0 : CoreUserRow)
    (he : fu.email = some fbe)
    (hex : st.coreDb.find? (fun r => r.email == strToLower fbe) = some c0) :
    saveUserToDatabases env fp userData oktaGuid fu st calls arts =
      (if localCreateConflict st.localDb
          ⟨userData.owner, strToLower fbe, oktaGuid, c0.id, false⟩ then
        ⟨none, st, calls ++ [.localCreate userData.owner],
          arts ++ [⟨"users", fp, "Unique constraint failed", .profile userData⟩]⟩
      else
        ⟨some (.core c0),
          { st with localDb :=
            st.localDb ++ [⟨userData.owner, strToLower fbe, oktaGuid, c0.id, false⟩] },
          calls ++ [.localCreate userData.owner], arts⟩) := by
  unfold saveUserToDatabases
  rw [he]
  simp only [hex]

/-- Branch equation of `saveUserToDatabases` when no Core row with the
email exists: a fresh Core row is created first. -/
theorem saveUserToDatabases_eq_create (env : UsersEnv) (fp : String)
    (userData : UserProfile) (oktaGuid : String) (fu : FirebaseUserRec) (st : UsersState)
    (calls : List UserCall) (arts : List UArtifact) (fbe : String)
    (he : fu.email = some fbe)
    (hex : st.coreDb.find? (fun r => r.email == strToLower fbe) = none) :
    saveUserToDatabases env fp userData oktaGuid fu st calls arts =
      (let newCore : CoreUserRow :=
        ⟨env.uuid st.uuidIdx, fu.uid, displayNamePart fu.displayName 0,
          displayNamePart fu.displayName 1, strToLower fbe, fu.emailVerified, false⟩
       if localCreateConflict st.localDb
          ⟨userData.owner, strToLower fbe, oktaGuid, newCore.id, false⟩ then
        ⟨none, { st with coreDb := st.coreDb ++ [newCore], uuidIdx := st.uuidIdx + 1 },
          calls ++ [.coreCreate newCore.id] ++ [.localCreate userData.owner],
          arts ++ [⟨"users", fp, "Unique constraint failed", .profile userData⟩]⟩
      else
        ⟨some (.core newCore),
          ⟨st.localDb ++ [⟨userData.owner, strToLower fbe, oktaGuid, newCore.id, false⟩],
            st.coreDb ++ [newCore], st.firebase, st.uuidIdx + 1⟩,
          calls ++ [.coreCreate newCore.id] ++ [.localCreate userData.owner], arts⟩) := by
  unfold saveUserToDatabases
  rw [he]
  simp only [hex]

/-- Post-state facts of `saveUserToDatabases`: afterwards the Core store
holds a row with the lowercased Firebase email, and the local store holds
a row colliding with the tuple this file would insert again. -/
theorem saveUserToDatabases_post (env : UsersEnv) (fp : String) (userData : UserProfile)
    (oktaGuid : String) (fu : FirebaseUserRec) (st : UsersState)
    (calls : List UserCall) (arts : List UArtifact) (fbe : String)
    (he : fu.email = some fbe) :
    (∃ c ∈ (saveUserToDatabases env fp userData oktaGuid fu st calls arts).state.coreDb,
      c.email = strToLower fbe) ∧
    (∃ r ∈ (saveUserToDatabases env fp userData oktaGuid fu st calls arts).state.localDb,
      r.ownerId = userData.owner ∨ r.email = strToLower fbe ∨ r.ssoGuid = oktaGuid ∨
      (∃ c, (saveUserToDatabases env fp userData oktaGuid fu st calls
          arts).state.coreDb.find? (fun x => x.email == strToLower fbe) = some c ∧
        r.coreId = c.id)) := by
  rcases hex : st.coreDb.find? (fun r => r.email == strToLower fbe) with _ | c0
  · rw [saveUserToDatabases_eq_create env fp userData oktaGuid fu st calls arts fbe he hex]
    by_cases hconf : localCreateConflict st.localDb
        ⟨userData.owner, strToLower fbe, oktaGuid, env.uuid st.uuidIdx, false⟩ = true
    · rw [if_pos hconf]
      constructor
      · exact ⟨⟨env.uuid st.uuidIdx, fu.uid, displayNamePart fu.displayName 0,
          displayNamePart fu.displayName 1, strToLower fbe, fu.emailVerified, false⟩,
          by simp, rfl⟩
      · obtain ⟨r, hmem, hpred⟩ := List.any_eq_true.mp hconf
        simp only [Bool.or_eq_true, beq_iff_eq] at hpred
        refine ⟨r, hmem, ?_⟩
        have hfind : (st.coreDb ++
            [(⟨env.uuid st.uuidIdx, fu.uid, displayNamePart fu.displayName 0,
              displayNamePart fu.displayName 1, strToLower fbe, fu.emailVerified,
              false⟩ : CoreUserRow)]).find? (fun x => x.email == strToLower fbe) =
            some ⟨env.uuid st.uuidIdx, fu.uid, displayNamePart fu.displayName 0,
              displayNamePart fu.displayName 1, strToLower fbe, fu.emailVerified, false⟩ := by
          rw [List.find?_append, hex]
          simp
        rcases hpred with ((h1 | h2) | h3) | h4
        · exact Or.inl h1
        · exact Or.inr (Or.inl h2)
        · exact Or.inr (Or.inr (Or.inl h3))
        · exact Or.inr (Or.inr (Or.inr ⟨_, hfind, h4⟩))
    · rw [if_neg hconf]
      constructor
      · exact ⟨⟨env.uuid st.uuidIdx, fu.uid, displayNamePart fu.displayName 0,
          displayNamePart fu.displayName 1, strToLower fbe, fu.emailVerified, false⟩,
          by simp, rfl⟩
      · exact ⟨⟨userData.owner, strToLower fbe, oktaGuid, env.uuid st.uuidIdx, false⟩,
          by simp, Or.inl rfl⟩
  · rw [saveUserToDatabases_eq_reuse env fp userData oktaGuid fu st calls arts fbe c0 he hex]
    have hc0mem := List.mem_of_find?_eq_some hex
    have hc0eq : c0.email = strToLower fbe := by
      have := List.find?_some hex
      simpa using this
    by_cases hconf : localCreateConflict st.localDb
        ⟨userData.owner, strToLower fbe, oktaGuid, c0.id, false⟩ = true
    · rw [if_pos hconf]
      constructor
      · exact ⟨c0, hc0mem, hc0eq⟩
      · obtain ⟨r, hmem, hpred⟩ := List.any_eq_true.mp hconf
        simp only [Bool.or_eq_true, beq_iff_eq] at hpred
        refine ⟨r, hmem, ?_⟩
        rcases hpred with ((h1 | h2) | h3) | h4
        · exact Or.inl h1
        · exact Or.inr (Or.inl h2)
        · exact Or.inr (Or.inr (Or.inl h3))
        · exact Or.inr (Or.inr (Or.inr ⟨c0, hex, h4⟩))
    · rw [if_neg hconf]
      constructor
      · exact ⟨c0, hc0mem, hc0eq⟩
      · exact ⟨⟨userData.owner, strToLower fbe, oktaGuid, c0.id, false⟩, by simp, Or.inl rfl⟩

/-- With the residue of a previous run in place, `saveUserToDatabases`
adds no local row and no Core row. -/
theorem saveUserToDatabases_noop (env : UsersEnv) (fp : String) (userData : UserProfile)
    (oktaGuid : String) (fu : FirebaseUserRec) (st : UsersState)
    (calls : List UserCall) (arts : List UArtifact) (fbe : String)
    (he : fu.email = some fbe)
    (hcov : ∃ c ∈ st.coreDb, c.email = strToLower fbe)
    (hclash : ∃ r ∈ st.localDb,
      r.ownerId = userData.owner ∨ r.email = strToLower fbe ∨ r.ssoGuid = oktaGuid ∨
      (∃ c, st.coreDb.find? (fun x => x.email == strToLower fbe) = some c ∧
        r.coreId = c.id)) :
    (saveUserToDatabases env fp userData oktaGuid fu st calls arts).state.localDb =
      st.localDb ∧
    (saveUserToDatabases env fp userData oktaGuid fu st calls arts).state.coreDb =
      st.coreDb := by
  obtain ⟨c1, hc1mem, hc1eq⟩ := hcov
  have hexS : (st.coreDb.find? (fun r => r.email == strToLower fbe)).isSome :=
    List.find?_isSome.mpr ⟨c1, hc1mem, by simp [hc1eq]⟩
  obtain ⟨c0, hex⟩ := Option.isSome_iff_exists.mp hexS
  rw [saveUserToDatabases_eq_reuse env fp userData oktaGuid fu st calls arts fbe c0 he hex]
  have hconf : localCreateConflict st.localDb
      ⟨userData.owner, strToLower fbe, oktaGuid, c0.id, false⟩ = true := by
    obtain ⟨r, hmem, hdisj⟩ := hclash
    refine List.any_eq_true.mpr ⟨r, hmem, ?_⟩
    simp only [Bool.or_eq_true, beq_iff_eq]
    rcases hdisj with h | h | h | ⟨c, hcfind, hcid⟩
    · exact Or.inl (Or.inl (Or.inl h))
    · exact Or.inl (Or.inl (Or.inr h))
    · exact Or.inl (Or.inr h)
    · have hcc : c = c0 := by
        rw [hcfind] at hex
        exact Option.some.inj hex
      exact Or.inr (hcc ▸ hcid)
  rw [if_pos hconf]
  exact ⟨rfl, rfl⟩

/-- `saveUserToDatabases` only appends to the two stores. -/
theorem saveUserToDatabases_extends (env : UsersEnv) (fp : String) (userData : UserProfile)
    (oktaGuid : String) (fu : FirebaseUserRec) (st : UsersState)
    (calls : List UserCall) (arts : List UArtifact) :
    ∃ dl dc,
      (saveUserToDatabases env fp userData oktaGuid fu st calls arts).state.localDb =
        st.localDb ++ dl ∧
      (saveUserToDatabases env fp userData oktaGuid fu st calls arts).state.coreDb =
        st.coreDb ++ dc := by
  rcases he : fu.email with _ | fbe
  · refine ⟨[], [], ?_, ?_⟩ <;> (unfold saveUserToDatabases; rw [he]; simp)
  · rcases hex : st.coreDb.find? (fun r => r.email == strToLower fbe) with _ | c0
    · rw [saveUserToDatabases_eq_create env fp userData oktaGuid fu st calls arts fbe he hex]
      by_cases hconf : localCreateConflict st.localDb
          ⟨userData.owner, strToLower fbe, oktaGuid, env.uuid st.uuidIdx, false⟩ = true
      · rw [if_pos hconf]
        exact ⟨[], _, by simp, rfl⟩
      · rw [if_neg hconf]
        exact ⟨_, _, rfl, rfl⟩
    · rw [saveUserToDatabases_eq_reuse env fp userData oktaGuid fu st calls arts fbe c0 he hex]
      by_cases hconf : localCreateConflict st.localDb
          ⟨userData.owner, strToLower fbe, oktaGuid, c0.id, false⟩ = true
      · rw [if_pos hconf]
        exact ⟨[], [], by simp, by simp⟩
      · rw [if_neg hconf]
        exact ⟨_, [], rfl, by simp⟩

/-- Branch equation of `processUserFile` once the file is valid, no
mapping row exists, and the directory returned a single match with a
primary email: execution continues into the Firebase/persistence phase. -/
theorem processUserFile_eq_resolve (env : UsersEnv) (fp : String) (rawData : JValue)
    (u : UserProfile) (st : UsersState) (resData : OktaUserRec) (pe : OktaEmailEntry)
    (hv : validateAndTransformUser rawData = .valid u)
    (hfind : st.localDb.find? (fun r => r.ssoGuid == u.theKeySsoGuid) = none)
    (hok : env.okta (strTrim u.theKeySsoGuid) = .ok [resData])
    (hpe : oktaPrimary resData = some pe) :
    processUserFile env false fp (some rawData) st =
      (match fbGetUserByEmail st.firebase pe.value with
       | some firebaseUser =>
           if firebaseUser.providerIds.contains "oidc.okta" then
             saveUserToDatabases env fp u resData.theKeyGuid firebaseUser st
               ([UserCall.oktaSearch (strTrim u.theKeySsoGuid)] ++
                 [UserCall.firebaseGetUserByEmail pe.value]) []
           else
             saveUserToDatabases env fp u resData.theKeyGuid
               { firebaseUser with providerIds := firebaseUser.providerIds ++ ["oidc.okta"] }
               { st with firebase := fbLinkOkta st.firebase firebaseUser.uid }
               ([UserCall.oktaSearch (strTrim u.theKeySsoGuid)] ++
                 [UserCall.firebaseGetUserByEmail pe.value] ++
                 [UserCall.firebaseUpdateUser firebaseUser.uid]) []
       | none =>
           saveUserToDatabases env fp u resData.theKeyGuid
             ⟨env.uuid st.uuidIdx, some pe.value, pe.status == "VERIFIED",
               some (oktaDisplayName resData.firstName resData.lastName), ["oidc.okta"]⟩
             { st with
               firebase := st.firebase ++
                 [⟨env.uuid st.uuidIdx, some pe.value, pe.status == "VERIFIED",
                   some (oktaDisplayName resData.firstName resData.lastName), ["oidc.okta"]⟩]
               uuidIdx := st.uuidIdx + 1 }
             ([UserCall.oktaSearch (strTrim u.theKeySsoGuid)] ++
               [UserCall.firebaseGetUserByEmail pe.value] ++
               [UserCall.firebaseCreateUser pe.value,
                 UserCall.firebaseUpdateUser (env.uuid st.uuidIdx)]) []) := by
  unfold processUserFile
  simp only [hv, hfind, hok, hpe, Bool.false_eq_true, if_false, reduceIte]

/-- The fast path: an existing mapping row short-circuits everything. -/
theorem processUserFile_fast_path (env : UsersEnv) (fp : String) (rawData : JValue)
    (u : UserProfile) (st : UsersState) (row : LocalUserRow)
    (hv : validateAndTransformUser rawData = .valid u)
    (hfind : st.localDb.find? (fun r => r.ssoGuid == u.theKeySsoGuid) = some row) :
    processUserFile env false fp (some rawData) st =
      ⟨some (.localUser row), st, [], []⟩ := by
  unfold processUserFile
  simp only [hv, Bool.false_eq_true, if_false, hfind, reduceIte]

/-- All early-exit branches other than the fast path leave the state
untouched. -/
theorem processUserFile_early_state (env : UsersEnv) (fp : String) (raw : Option JValue)
    (st : UsersState)
    (h : match raw with
      | none => True
      | some rawData =>
        match validateAndTransformUser rawData with
        | .casSkipped => True
        | .invalid => True
        | .valid u =>
            st.localDb.find? (fun r => r.ssoGuid == u.theKeySsoGuid) = none ∧
            match env.okta (strTrim u.theKeySsoGuid) with
            | .exception => True
            | .httpError _ => True
            | .ok [] => True
            | .ok (_ :: _ :: _) => True
            | .ok [resData] => oktaPrimary resData = none) :
    (processUserFile env false fp raw st).state = st := by
  rcases raw with _ | rawData
  · rfl
  · unfold processUserFile
    rcases hv : validateAndTransformUser rawData with _ | _ | u
    · simp only [hv]
    · simp only [hv]
    · simp only [hv] at h
      obtain ⟨hfind, hrest⟩ := h
      simp only [hv, Bool.false_eq_true, if_false, hfind, reduceIte]
      rcases hok : env.okta (strTrim u.theKeySsoGuid) with users | s | _
      · simp only [hok] at hrest ⊢
        rcases users with _ | ⟨r0, _ | ⟨r1, rest⟩⟩
        · rfl
        · simp only at hrest
          simp only [hrest]
        · rfl
      · simp only [hok]
      · simp only [hok]

/-- `processUserFile` only ever appends to the local and Core stores. -/
theorem processUserFile_extends (env : UsersEnv) (fp : String) (raw : Option JValue)
    (st : UsersState) :
    ∃ dl dc,
      (processUserFile env false fp raw st).state.localDb = st.localDb ++ dl ∧
      (processUserFile env false fp raw st).state.coreDb = st.coreDb ++ dc := by
  have trivialCase : (processUserFile env false fp raw st).state = st →
      ∃ dl dc, (processUserFile env false fp raw st).state.localDb = st.localDb ++ dl ∧
        (processUserFile env false fp raw st).state.coreDb = st.coreDb ++ dc := by
    intro hst
    exact ⟨[], [], by rw [hst]; simp, by rw [hst]; simp⟩
  rcases raw with _ | rawData
  · exact trivialCase rfl
  · rcases hv : validateAndTransformUser rawData with _ | _ | u
    · exact trivialCase (processUserFile_early_state env fp (some rawData) st (by simp [hv]))
    · exact trivialCase (processUserFile_early_state env fp (some rawData) st (by simp [hv]))
    · rcases hfind : st.localDb.find? (fun r => r.ssoGuid == u.theKeySsoGuid) with _ | row
      · rcases hok : env.okta (strTrim u.theKeySsoGuid) with users | s | _
        · rcases users with _ | ⟨r0, _ | ⟨r1, rest⟩⟩
          · exact trivialCase (processUserFile_early_state env fp (some rawData) st
              (by simp [hv, hfind, hok]))
          · rcases hpe : oktaPrimary r0 with _ | pe
            · exact trivialCase (processUserFile_early_state env fp (some rawData) st
                (by simp [hv, hfind, hok, hpe]))
            · rw [processUserFile_eq_resolve env fp rawData u st r0 pe hv hfind hok hpe]
              rcases hfb : fbGetUserByEmail st.firebase pe.value with _ | fu
              · simp only [hfb]
                exact saveUserToDatabases_extends env fp u r0.theKeyGuid _ _ _ _
              · simp only [hfb]
                by_cases hprov : fu.providerIds.contains "oidc.okta" = true
                · rw [if_pos hprov]
                  exact saveUserToDatabases_extends env fp u r0.theKeyGuid _ _ _ _
                · rw [if_neg hprov]
                  exact saveUserToDatabases_extends env fp u r0.theKeyGuid _ _ _ _
          · exact trivialCase (processUserFile_early_state env fp (some rawData) st
              (by simp [hv, hfind, hok]))
        · exact trivialCase (processUserFile_early_state env fp (some rawData) st
            (by simp [hv, hfind, hok]))
        · exact trivialCase (processUserFile_early_state env fp (some rawData) st
            (by simp [hv, hfind, hok]))
      · have := processUserFile_fast_path env fp rawData u st row hv hfind
        exact trivialCase (by rw [this])

/-- The residue invariant: state `t` already guarantees that processing
the file again inserts no local and no Core row. -/
def UserFileInv (env : UsersEnv) (raw : Option JValue) (t : UsersState) : Prop :=
  match raw with
  | none => True
  | some rawData =>
      match validateAndTransformUser rawData with
      | .casSkipped => True
      | .invalid => True
      | .valid u =>
          (∃ row ∈ t.localDb, row.ssoGuid = u.theKeySsoGuid) ∨
          match env.okta (strTrim u.theKeySsoGuid) with
          | .exception => True
          | .httpError _ => True
          | .ok [] => True
          | .ok (_ :: _ :: _) => True
          | .ok [resData] =>
              match oktaPrimary resData with
              | none => True
              | some pe =>
                  (∃ c ∈ t.coreDb, c.email = strToLower pe.value) ∧
                  (∃ r ∈ t.localDb,
                    r.ownerId = u.owner ∨ r.email = strToLower pe.value ∨
                    r.ssoGuid = resData.theKeyGuid ∨
                    (∃ c, t.coreDb.find? (fun x => x.email == strToLower pe.value) =
                        some c ∧ r.coreId = c.id))

/-- The invariant only reads the local and Core stores and is monotone
under appending rows to them. -/
theorem UserFileInv_mono (env : UsersEnv) (raw : Option JValue) {t t' : UsersState}
    (hl : ∃ dl, t'.localDb = t.localDb ++ dl)
    (hc : ∃ dc, t'.coreDb = t.coreDb ++ dc)
    (h : UserFileInv env raw t) : UserFileInv env raw t' := by
  obtain ⟨dl, hdl⟩ := hl
  obtain ⟨dc, hdc⟩ := hc
  unfold UserFileInv at h ⊢
  rcases raw with _ | rawData
  · trivial
  · rcases hv : validateAndTransformUser rawData with _ | _ | u <;>
      simp only [hv] at h ⊢
    rcases h with ⟨row, hrow, hguid⟩ | h
    · exact Or.inl ⟨row, by rw [hdl]; exact List.mem_append_left _ hrow, hguid⟩
    · right
      rcases hok : env.okta (strTrim u.theKeySsoGuid) with users | s | _ <;>
        simp only [hok] at h ⊢
      rcases users with _ | ⟨resData, _ | ⟨r1, rest⟩⟩
      · trivial
      · rcases hpe : oktaPrimary resData with _ | pe <;> simp only [hpe] at h ⊢
        obtain ⟨⟨c, hcmem, hce⟩, ⟨r, hrmem, hr⟩⟩ := h
        refine ⟨⟨c, by rw [hdc]; exact List.mem_append_left _ hcmem, hce⟩,
          ⟨r, by rw [hdl]; exact List.mem_append_left _ hrmem, ?_⟩⟩
        rcases hr with h1 | h2 | h3 | ⟨c0, hfind, hcid⟩
        · exact Or.inl h1
        · exact Or.inr (Or.inl h2)
        · exact Or.inr (Or.inr (Or.inl h3))
        · refine Or.inr (Or.inr (Or.inr ⟨c0, ?_, hcid⟩))
          rw [hdc, List.find?_append, hfind]
          rfl
      · trivial

/-- One processing run establishes the invariant for its own file. -/
theorem UserFileInv_after (env : UsersEnv) (fp : String) (raw : Option JValue)
    (st : UsersState) :
    UserFileInv env raw (processUserFile env false fp raw st).state := by
  rcases raw with _ | rawData
  · trivial
  · unfold UserFileInv
    rcases hv : validateAndTransformUser rawData with _ | _ | u <;> simp only [hv]
    rcases hfind : st.localDb.find? (fun r => r.ssoGuid == u.theKeySsoGuid) with _ | row
    · rcases hok : env.okta (strTrim u.theKeySsoGuid) with users | s | _
      · rcases users with _ | ⟨resData, _ | ⟨r1, rest⟩⟩
        · exact Or.inr (by simp [hok])
        · rcases hpe : oktaPrimary resData with _ | pe
          · exact Or.inr (by simp [hok, hpe])
          · refine Or.inr ?_
            simp only [hok, hpe]
            rw [processUserFile_eq_resolve env fp rawData u st resData pe hv hfind hok hpe]
            rcases hfb : fbGetUserByEmail st.firebase pe.value with _ | fu
            · simp only [hfb]
              exact saveUserToDatabases_post env fp u resData.theKeyGuid _ _ _ _ pe.value rfl
            · simp only [hfb]
              have he := fbGetUserByEmail_email st.firebase pe.value fu hfb
              by_cases hprov : fu.providerIds.contains "oidc.okta" = true
              · rw [if_pos hprov]
                exact saveUserToDatabases_post env fp u resData.theKeyGuid fu st _ _
                  pe.value he
              · rw [if_neg hprov]
                exact saveUserToDatabases_post env fp u resData.theKeyGuid
                  { fu with providerIds := fu.providerIds ++ ["oidc.okta"] }
                  { st with firebase := fbLinkOkta st.firebase fu.uid } _ _ pe.value he
        · exact Or.inr (by simp [hok])
      · exact Or.inr (by simp [hok])
      · exact Or.inr (by simp [hok])
    · rw [processUserFile_fast_path env fp rawData u st row hv hfind]
      refine Or.inl ⟨row, List.mem_of_find?_eq_some hfind, ?_⟩
      have := List.find?_some hfind
      simpa using this

/-- Sufficiency: once the invariant holds, re-processing the file leaves
both the local mapping store and the Core store exactly as they were. -/
theorem UserFileInv_stable (env : UsersEnv) (fp : String) (raw : Option JValue)
    (t : UsersState) (h : UserFileInv env raw t) :
    (processUserFile env false fp raw t).state.localDb = t.localDb ∧
    (processUserFile env false fp raw t).state.coreDb = t.coreDb := by
  have ofState : (processUserFile env false fp raw t).state = t →
      (processUserFile env false fp raw t).state.localDb = t.localDb ∧
      (processUserFile env false fp raw t).state.coreDb = t.coreDb := by
    intro hst
    exact ⟨by rw [hst], by rw [hst]⟩
  rcases raw with _ | rawData
  · exact ofState rfl
  · unfold UserFileInv at h
    rcases hv : validateAndTransformUser rawData with _ | _ | u
    · exact ofState (processUserFile_early_state env fp (some rawData) t (by simp [hv]))
    · exact ofState (processUserFile_early_state env fp (some rawData) t (by simp [hv]))
    · simp only [hv] at h
      rcases hfind : t.localDb.find? (fun r => r.ssoGuid == u.theKeySsoGuid) with _ | row
      · rcases h with ⟨row, hrow, hguid⟩ | hrest
        · exact absurd (by simp [hguid]) (List.find?_eq_none.mp hfind row hrow)
        · rcases hok : env.okta (strTrim u.theKeySsoGuid) with users | s | _
          · rcases users with _ | ⟨resData, _ | ⟨r1, rest⟩⟩
            · exact ofState (processUserFile_early_state env fp (some rawData) t
                (by simp [hv, hfind, hok]))
            · rcases hpe : oktaPrimary resData with _ | pe
              · exact ofState (processUserFile_early_state env fp (some rawData) t
                  (by simp [hv, hfind, hok, hpe]))
              · simp only [hok, hpe] at hrest
                rw [processUserFile_eq_resolve env fp rawData u t resData pe hv hfind hok hpe]
                rcases hfb : fbGetUserByEmail t.firebase pe.value with _ | fu
                · simp only [hfb]
                  exact saveUserToDatabases_noop env fp u resData.theKeyGuid _ _ _ _
                    pe.value rfl hrest.1 hrest.2
                · simp only [hfb]
                  have he := fbGetUserByEmail_email t.firebase pe.value fu hfb
                  by_cases hprov : fu.providerIds.contains "oidc.okta" = true
                  · rw [if_pos hprov]
                    exact saveUserToDatabases_noop env fp u resData.theKeyGuid fu t _ _
                      pe.value he hrest.1 hrest.2
                  · rw [if_neg hprov]
                    exact saveUserToDatabases_noop env fp u resData.theKeyGuid
                      { fu with providerIds := fu.providerIds ++ ["oidc.okta"] }
                      { t with firebase := fbLinkOkta t.firebase fu.uid } _ _
                      pe.value he hrest.1 hrest.2
            · exact ofState (processUserFile_early_state env fp (some rawData) t
                (by simp [hv, hfind, hok]))
          · exact ofState (processUserFile_early_state env fp (some rawData) t
              (by simp [hv, hfind, hok]))
          · exact ofState (processUserFile_early_state env fp (some rawData) t
              (by simp [hv, hfind, hok]))
      · exact ofState (by
          rw [processUserFile_fast_path env fp rawData u t row hv hfind])

/-- The aggregation step threads exactly the per-file post-state. -/
theorem ingestUsersStep_state (env : UsersEnv) (dryRun : Bool) (acc : URunAcc)
    (f : String × Option JValue) :
    (ingestUsersStep env dryRun acc f).state =
      (processUserFile env dryRun f.fst f.snd acc.state).state := by
  unfold ingestUsersStep
  rcases h : (processUserFile env dryRun f.fst f.snd acc.state).outcome <;> simp [h]

/-- The store state threaded through a whole (non-dry) ingestion run. -/
def runUsersState (env : UsersEnv) (files : List (String × Option JValue))
    (st : UsersState) : UsersState :=
  files.foldl (fun t f => (processUserFile env false f.fst f.snd t).state) st

theorem foldl_ingestUsersStep_state (env : UsersEnv)
    (files : List (String × Option JValue)) (acc : URunAcc) :
    (files.foldl (ingestUsersStep env false) acc).state =
      runUsersState env files acc.state := by
  induction files generalizing acc with
  | nil => rfl
  | cons f rest ih =>
      rw [List.foldl_cons, ih, ingestUsersStep_state]
      rfl

theorem runUsersState_extends (env : UsersEnv) (files : List (String × Option JValue))
    (st : UsersState) :
    ∃ dl dc, (runUsersState env files st).localDb = st.localDb ++ dl ∧
      (runUsersState env files st).coreDb = st.coreDb ++ dc := by
  induction files generalizing st with
  | nil => exact ⟨[], [], by simp [runUsersState], by simp [runUsersState]⟩
  | cons f rest ih =>
      obtain ⟨dl1, dc1, h1, h2⟩ := processUserFile_extends env f.fst f.snd st
      obtain ⟨dl2, dc2, h3, h4⟩ := ih ((processUserFile env false f.fst f.snd st).state)
      have hstep : runUsersState env (f :: rest) st =
          runUsersState env rest ((processUserFile env false f.fst f.snd st).state) := rfl
      exact ⟨dl1 ++ dl2, dc1 ++ dc2,
        by rw [hstep, h3, h1, List.append_assoc],
        by rw [hstep, h4, h2, List.append_assoc]⟩

/-- After one full run, the invariant holds for every file in the batch. -/
theorem UserFileInv_after_run (env : UsersEnv) (files : List (String × Option JValue))
    (st : UsersState) (f : String × Option JValue) (hmem : f ∈ files) :
    UserFileInv env f.snd (runUsersState env files st) := by
  induction files generalizing st with
  | nil => cases hmem
  | cons g rest ih =>
      have hstep : runUsersState env (g :: rest) st =
          runUsersState env rest ((processUserFile env false g.fst g.snd st).state) := rfl
      rcases List.mem_cons.mp hmem with heq | hmem'
      · subst heq
        rw [hstep]
        obtain ⟨dl, dc, h1, h2⟩ :=
          runUsersState_extends env rest ((processUserFile env false f.fst f.snd st).state)
        exact UserFileInv_mono env f.snd ⟨dl, h1⟩ ⟨dc, h2⟩
          (UserFileInv_after env f.fst f.snd st)
      · rw [hstep]
        exact ih _ hmem'

/-- A run over files whose invariants all hold adds no local and no Core row. -/
theorem runUsersState_stable (env : UsersEnv) (files : List (String × Option JValue))
    (t : UsersState) (h : ∀ f ∈ files, UserFileInv env f.snd t) :
    (runUsersState env files t).localDb = t.localDb ∧
    (runUsersState env files t).coreDb = t.coreDb := by
  induction files generalizing t with
  | nil => exact ⟨rfl, rfl⟩
  | cons f rest ih =>
      obtain ⟨h1, h2⟩ := UserFileInv_stable env f.fst f.snd t (h f (List.mem_cons_self f rest))
      have hrest : ∀ g ∈ rest,
          UserFileInv env g.snd (processUserFile env false f.fst f.snd t).state :=
        fun g hg =>
          UserFileInv_mono env g.snd ⟨[], by simp [h1]⟩ ⟨[], by simp [h2]⟩
            (h g (List.mem_cons_of_mem f hg))
      have hstep : runUsersState env (f :: rest) t =
          runUsersState env rest ((processUserFile env false f.fst f.snd t).state) := rfl
      obtain ⟨h3, h4⟩ := ih _ hrest
      exact ⟨by rw [hstep, h3, h1], by rw [hstep, h4, h2]⟩

/-- The threaded state a successful `ingestUsers` run hands back is the
fold of the per-file post-states. -/
theorem ingestUsers_state (env : UsersEnv) (files : List (String × Option JValue))
    (st : UsersState)
    (out : UserIngestionSummary × UsersState × List UserCall × List UArtifact)
    (h : ingestUsers env false files st = some out) :
    out.2.1 = runUsersState env files st := by
  unfold ingestUsers at h
  by_cases he : files.isEmpty = true
  · rw [if_pos he] at h
    cases h
  · rw [if_neg he] at h
    obtain rfl := Option.some.inj h
    exact foldl_ingestUsersStep_state env files ⟨st, [], 0, 0, [], []⟩

/-! ## C2 — idempotency and the ssoGuid fast path -/

/-- C2: running user ingestion twice over the same cache against the same
external directory creates zero new local mapping rows and zero new Core
rows on the second run; and a user file whose `ssoGuid` already has a
local mapping row is returned from that row immediately, with no external
call, no artifact and no change of state. -/
theorem C2_idempotent_fast_path (env : UsersEnv)
    (files : List (String × Option JValue)) (st0 : UsersState)
    (out1 out2 : UserIngestionSummary × UsersState × List UserCall × List UArtifact)
    (h1 : ingestUsers env false files st0 = some out1)
    (h2 : ingestUsers env false files out1.2.1 = some out2)
    (fp : String) (rawData : JValue) (u : UserProfile) (st : UsersState)
    (row : LocalUserRow)
    (hv : validateAndTransformUser rawData = .valid u)
    (hrow : st.localDb.find? (fun r => r.ssoGuid == u.theKeySsoGuid) = some row) :
    (out2.2.1.localDb = out1.2.1.localDb ∧ out2.2.1.coreDb = out1.2.1.coreDb) ∧
    processUserFile env false fp (some rawData) st =
      ⟨some (.localUser row), st, [], []⟩ := by
  constructor
  · have hst1 := ingestUsers_state env files st0 out1 h1
    have hst2 := ingestUsers_state env files out1.2.1 out2 h2
    rw [hst1] at hst2
    obtain ⟨ha, hb⟩ := runUsersState_stable env files (runUsersState env files st0)
      (fun f hf => UserFileInv_after_run env files st0 f hf)
    exact ⟨by rw [hst2, ha, ← hst1], by rw [hst2, hb, ← hst1]⟩
  · exact processUserFile_fast_path env fp rawData u st row hv hrow

/-- C2 witness: one valid user file ingested twice from the empty state —
the second run leaves both stores untouched, and re-processing the file
against the first run's state takes the fast path, returning the row the
first run created with no external call. -/
theorem C2_idempotent_fast_path_witness :
    ∃ out1 out2 u row,
      ingestUsers sampleUsersEnv false [("u1.json", some sampleUserDoc)] emptyUsersState =
        some out1 ∧
      ingestUsers sampleUsersEnv false [("u1.json", some sampleUserDoc)] out1.2.1 =
        some out2 ∧
      validateAndTransformUser sampleUserDoc = .valid u ∧
      out1.2.1.localDb.find? (fun r => r.ssoGuid == u.theKeySsoGuid) = some row ∧
      ((out2.2.1.localDb = out1.2.1.localDb ∧ out2.2.1.coreDb = out1.2.1.coreDb) ∧
        processUserFile sampleUsersEnv false "u2.json" (some sampleUserDoc) out1.2.1 =
          ⟨some (.localUser row), out1.2.1, [], []⟩) := by
  refine ⟨_, _, _, _, rfl, rfl, rfl, rfl, ?_⟩
  exact C2_idempotent_fast_path sampleUsersEnv [("u1.json", some sampleUserDoc)]
    emptyUsersState _ _ rfl rfl "u2.json" sampleUserDoc _ _ _ rfl rfl
